/-
  Verification development for the eve-control-room Decision & Evidence Ledger.

  Shallow embedding of:
    - eve/core/x_vault/x_vault.py   (MerkleTree, EvidenceObject, XVault)
    - eve/core/trinity_api.py       (normalize_project_id, Database, ECLParser
                                     JSON form, ECLValidator, DecisionEngine)

  Modelling conventions:
    - SHA-256 digests are modelled symbolically as a free algebra `Hash`:
      each way the code produces a digest string becomes a constructor.
      Constructor injectivity is the usual idealisation of collision
      resistance (together with the injectivity of the formatted pre-images,
      which the code guarantees by fixed-width hex digests and separator
      characters that cannot occur inside a hex digest).
    - Python `datetime.now()` / `uuid4()` values are threaded as explicit
      arguments.
    - Python exceptions are modelled with `Except String`; a raised
      exception propagates while in-place mutations performed before the
      raise persist, so stateful operations return `Except ... × Db`.
    - Python truthiness of optional strings / lists is modelled explicitly.
-/
import Mathlib

set_option maxRecDepth 10000

/-- Decidable equality of `Except` results, so that concrete runs of the
embedded operations can be checked by `decide`. -/
instance instDecEqExcept {ε α : Type} [DecidableEq ε] [DecidableEq α] :
    DecidableEq (Except ε α)
  | .ok x, .ok y =>
    match decEq x y with
    | isTrue h => isTrue (congrArg Except.ok h)
    | isFalse h => isFalse fun he => h (Except.ok.inj he)
  | .error x, .error y =>
    match decEq x y with
    | isTrue h => isTrue (congrArg Except.error h)
    | isFalse h => isFalse fun he => h (Except.error.inj he)
  | .ok _, .error _ => isFalse fun he => Except.noConfusion he
  | .error _, .ok _ => isFalse fun he => Except.noConfusion he

/-- Python `str.startswith`, character by character. -/
def startsWithCh : List Char → List Char → Bool
  | _, [] => true
  | [], _ :: _ => false
  | a :: as, b :: bs => a == b && startsWithCh as bs

/-- Separator join (`", ".join(...)` shape used by `json.dumps`). -/
def joinSep (sep : String) : List String → String
  | [] => ""
  | [x] => x
  | x :: y :: rest => x ++ sep ++ joinSep sep (y :: rest)

/-- Role / actor pair of a SIGNOFF entry (trinity_api.py text and JSON parsers). -/
structure Signoff where
  role : String
  actor_id : String
deriving DecidableEq, Repr

/-- Entry of a decision record's `executed_by` list
(trinity_api.py `_create_decision_object`). -/
structure Executor where
  role : String
  actor_id : String
  approval_method : String
deriving DecidableEq, Repr

/-- Symbolic SHA-256 digest strings.  Each constructor records the exact
pre-image the code feeds to `hashlib.sha256(...)`:
  - `raw s`: a plain string standing in a hash position (e.g. `"genesis"`,
    or an arbitrary Merkle leaf);
  - `sha256 s`: `sha256(s).hexdigest()` of a plain string `s`;
  - `pair l r`: `MerkleTree._hash_pair`, `sha256(left + right).hexdigest()`;
  - `vaultProof payload ts`: `Database.seal_to_vault`,
    `sha256(payload_hash + ":" + sealed_at + ":EVE-VAULT-v1").hexdigest()[:32]`;
  - `sign data ts org key`: `XVault._sign`,
    `sha256(data + ":" + ts + ":" + org + ":" + key).hexdigest()`;
  - `decisionDigest ...`: `sha256(json.dumps(decision_obj, sort_keys=True))`
    with the decision record's fields flattened into the constructor
    (the canonical JSON dump is injective on the record's fields);
  - `rulesetVersion`: the constant string
    `"eve-ruleset-v1.0-" + sha256(dumps(VALIDATION_RULES))[:8]`. -/
inductive Hash where
  | raw (s : String)
  | sha256 (s : String)
  | pair (l r : Hash)
  | vaultProof (payload : Hash) (sealedAt : String)
  | sign (data : Hash) (ts orgId key : String)
  | decisionDigest (eve_decision_id project_id hash_version decision_type
      status created_at : String) (executed_by : List Executor)
      (scope_system_id scope_use_case : Option String)
      (source_artifacts : Option (List String))
      (risk_links : Option (List String))
      (rule_set_version context_hash : Hash) (supersedes : Option String)
  | rulesetVersion
deriving DecidableEq, Repr

/-- Position tag of a Merkle proof step ("left" / "right" strings in the
source; only these two strings are ever produced). -/
inductive Pos where
  | left
  | right
deriving DecidableEq, Repr

/-- One pass of `MerkleTree._build_tree`'s inner loop: pair adjacent nodes,
duplicating the last node of an odd-length level
(`right = level[i + 1] if i + 1 < len(level) else level[i]`). -/
def pairUp : List Hash → List Hash
  | [] => []
  | [a] => [Hash.pair a a]
  | a :: b :: rest => Hash.pair a b :: pairUp rest

/-- Fuel-driven core of `MerkleTree._build_tree`'s `while` loop: keep the
current level and recurse while it has more than one node. -/
def levelsF : Nat → List Hash → List (List Hash)
  | 0, l => [l]
  | f + 1, l => if l.length ≤ 1 then [l] else l :: levelsF f (pairUp l)

/-- `MerkleTree._build_tree`: `self.tree` is `[]` when there are no leaves,
otherwise the list of levels ending at the single root level. -/
def buildTree (leaves : List Hash) : List (List Hash) :=
  if leaves.isEmpty then [] else levelsF leaves.length leaves

/-- `MerkleTree.root`: `None` when the tree is empty, else `tree[-1][0]`
(the code also yields `None` when the last level is empty). -/
def rootOf (leaves : List Hash) : Option Hash :=
  match (buildTree leaves).getLast? with
  | none => none
  | some lvl => lvl.head?

/-- Loop body of `MerkleTree.get_proof` over `self.tree[:-1]`: at each level
take the sibling (right for even indices, left for odd) when it is in range,
then halve the index. -/
def proofGo : List (List Hash) → Nat → List (Hash × Pos)
  | [], _ => []
  | level :: rest, index =>
    let (sibIdx, position) :=
      if index % 2 = 0 then (index + 1, Pos.right) else (index - 1, Pos.left)
    let step :=
      match level.get? sibIdx with
      | some sib => [(sib, position)]
      | none => []
    step ++ proofGo rest (index / 2)

/-- `MerkleTree.get_proof`: empty proof for out-of-range indices, otherwise
walk all levels except the root level. -/
def getProofLeaves (leaves : List Hash) (leafIndex : Nat) : List (Hash × Pos) :=
  if leaves.length ≤ leafIndex then []
  else proofGo (buildTree leaves).dropLast leafIndex

/-- One step of `MerkleTree.verify_proof`'s loop: combine the running hash
with the proof sibling in the recorded position. -/
def proofStep (cur : Hash) (sp : Hash × Pos) : Hash :=
  match sp.2 with
  | Pos.right => Hash.pair cur sp.1
  | Pos.left => Hash.pair sp.1 cur

/-- `MerkleTree.verify_proof`: replay the proof from the claimed leaf hash
and compare with the known root. -/
def verifyProof (leafHash : Hash) (proof : List (Hash × Pos)) (root : Hash) : Bool :=
  proof.foldl proofStep leafHash == root

/-- Evidence object types (x_vault.py `EvidenceType`). -/
inductive EvidenceType where
  | witness_response
  | authorization_decision
  | knowledge_publish
  | rule_profile_change
  | system_event
  | export_event
deriving DecidableEq, Repr

/-- Evidence record (x_vault.py `EvidenceObject`).  `content` is the
canonical JSON dump of the sealed content dict (`json.dumps(content,
sort_keys=True, ensure_ascii=False)` is injective on dicts, so the dump
represents the content faithfully).  `merkle_path` keeps the
(sibling hash, position) pairs structurally; the source stores them as
`"hash:position"` strings, a lossless encoding because hex digests contain
no colon. -/
structure EvidenceObject where
  evidence_id : String
  evidence_type : EvidenceType
  timestamp : String
  content_hash : Hash
  content : String
  merkle_path : List (Hash × Pos)
  previous_hash : Hash
  signature : Hash
  metadata : List (String × String)
deriving DecidableEq, Repr

/-- `EvidenceObject.verify`: recompute the content hash and compare it with
the stored one. -/
def EvidenceObject.verify (e : EvidenceObject) : Bool :=
  Hash.sha256 e.content == e.content_hash

/-- X-Vault ledger state (x_vault.py `XVault.__init__`).  The Merkle tree
object is determined by its leaves (`_build_tree` is a pure function of
them), so only the leaves are stored.  Snapshots are omitted: no claim
touches them. -/
structure XVault where
  org_id : String
  signing_key : String
  evidence_chain : List EvidenceObject
  merkle_leaves : List Hash
  last_hash : Hash
deriving DecidableEq, Repr

/-- Fresh vault: empty chain, empty tree, `last_hash = "genesis"`. -/
def XVault.init (org key : String) : XVault :=
  ⟨org, key, [], [], Hash.raw "genesis"⟩

/-- `MerkleTree.root` of the vault's running tree. -/
def XVault.root (v : XVault) : Option Hash :=
  rootOf v.merkle_leaves

/-- Inputs of one `XVault.seal` call; `timestamp` stands for
`datetime.now(timezone.utc).isoformat()` and `evidence_id` for `uuid4()`. -/
structure SealInput where
  evidence_type : EvidenceType
  content : String
  timestamp : String
  evidence_id : String
  metadata : List (String × String)
deriving DecidableEq, Repr

/-- `XVault.seal`: hash the content, append the hash as a Merkle leaf,
record the inclusion proof for that leaf, sign, chain `previous_hash` to the
prior record's content hash and advance `last_hash`. -/
def XVault.seal (v : XVault) (inp : SealInput) : EvidenceObject × XVault :=
  let ch := Hash.sha256 inp.content
  let leaves := v.merkle_leaves ++ [ch]
  let leafIndex := leaves.length - 1
  let proof := getProofLeaves leaves leafIndex
  let e : EvidenceObject :=
    { evidence_id := inp.evidence_id
      evidence_type := inp.evidence_type
      timestamp := inp.timestamp
      content_hash := ch
      content := inp.content
      merkle_path := proof
      previous_hash := v.last_hash
      signature := Hash.sign ch inp.timestamp v.org_id v.signing_key
      metadata := inp.metadata }
  (e, { v with
        evidence_chain := v.evidence_chain ++ [e]
        merkle_leaves := leaves
        last_hash := ch })

/-- A sequence of `seal` calls folded over the vault state. -/
def XVault.sealMany (v : XVault) (inputs : List SealInput) : XVault :=
  inputs.foldl (fun w inp => (XVault.seal w inp).2) v

/-- `XVault.verify_evidence`: content-hash check first; then, only when the
stored Merkle path is non-empty (truthy) and the tree has a root, replay the
stored proof against the current root. -/
def XVault.verifyEvidence (v : XVault) (e : EvidenceObject) : Bool :=
  if ¬ e.verify then false
  else
    match e.merkle_path, v.root with
    | [], _ => true
    | _, none => true
    | p :: ps, some r => verifyProof e.content_hash (p :: ps) r

/-- Content-hash violation reported by `XVault.verify_chain` for one record. -/
def contentErrs (e : EvidenceObject) : List String :=
  if e.verify then [] else ["Evidence " ++ e.evidence_id ++ ": content hash mismatch"]

/-- Chain-link violation reported by `XVault.verify_chain` for one record
with respect to its predecessor. -/
def prevErrs (prev e : EvidenceObject) : List String :=
  if e.previous_hash = prev.content_hash then []
  else ["Evidence " ++ e.evidence_id ++ ": chain broken"]

/-- `XVault.verify_chain`'s loop for records with a predecessor: content
check, then previous-hash check, in log order. -/
def chainErrsAux (prev : EvidenceObject) : List EvidenceObject → List String
  | [] => []
  | e :: rest => contentErrs e ++ prevErrs prev e ++ chainErrsAux e rest

/-- All violations collected by `XVault.verify_chain` (the first record has
no previous-hash check). -/
def chainErrs : List EvidenceObject → List String
  | [] => []
  | e :: rest => contentErrs e ++ chainErrsAux e rest

/-- `XVault.verify_chain`: walk the full log and collect every violation. -/
def XVault.verifyChain (v : XVault) : Bool × List String :=
  let errors := chainErrs v.evidence_chain
  (errors.isEmpty, errors)

/-- Post-seal tampering: overwrite the `content` field of record `i`
in place, leaving every other field (including its stored hash) intact. -/
def XVault.mutateContent (v : XVault) (i : Nat) (c : String) : XVault :=
  { v with
    evidence_chain :=
      match v.evidence_chain.get? i with
      | none => v.evidence_chain
      | some e => v.evidence_chain.set i { e with content := c } }

/-- Value of one key of a Python params dict.  `absent` = the key is not in
the dict, `null` = the key is present with value `None`, `val a` = the key
holds `a`.  The distinction matters: `params.get(k, default)` returns the
default only for `absent`, but `None` for `null`. -/
inductive PField (α : Type) where
  | absent
  | null
  | val (a : α)
deriving DecidableEq, Repr

/-- Python `params.get(k)` (no default): `None` unless the key holds a value. -/
def PField.get {α : Type} : PField α → Option α
  | .absent => none
  | .null => none
  | .val a => some a

/-- Python `params.get(k, d)`: the default for a missing key, the stored
value otherwise — which is `None` when the key is present with `None`. -/
def PField.getD {α : Type} : PField α → α → Option α
  | .absent, d => some d
  | .null, _ => none
  | .val a, _ => some a

/-- Python truthiness of an optional string (`None` and `""` are falsy). -/
def truthyS : Option String → Bool
  | none => false
  | some s => !(s == "")

/-- Python truthiness of an optional list (`None` and `[]` are falsy). -/
def truthyL {α : Type} : Option (List α) → Bool
  | none => false
  | some l => !l.isEmpty

/-- Query filters for the read verbs (trinity_api.py `_query` /
`list_decisions`). -/
structure Filters where
  decision_type : Option String
  status : Option String
  system_id : Option String
  project_id : Option String
deriving DecidableEq, Repr

/-- Normalized instruction parameters (the `params` dict both parsers build). -/
structure Params where
  system_id : PField String
  use_case : PField String
  artifacts : PField (List String)
  risk_links : PField (List String)
  signoff : PField (List Signoff)
  project_id : PField String
  eve_decision_id : PField String
  supersedes : PField String
  filters : PField Filters
deriving DecidableEq, Repr

/-- Params dict with no keys (fresh `params = {}` of the text parser). -/
def Params.empty : Params :=
  ⟨.absent, .absent, .absent, .absent, .absent, .absent, .absent, .absent, .absent⟩

/-- Command type tag ("decision" / "read"). -/
inductive CmdType where
  | decision
  | read
deriving DecidableEq, Repr

/-- Normalized command produced by the parser. -/
structure Command where
  type : CmdType
  verb : String
  params : Params
deriving DecidableEq, Repr

/-- trinity_api.py `ECLDecisionCommand` (string enum). -/
inductive ECLDecisionCommand where
  | CLASSIFY
  | APPROVE_GOVERNANCE
  | ACCEPT_RISK
  | APPROVE_DATA
  | APPROVE_CHANGE
  | INCIDENT_ACTION
  | DECOMMISSION
deriving DecidableEq, Repr

/-- The enum member's string value. -/
def ECLDecisionCommand.value : ECLDecisionCommand → String
  | .CLASSIFY => "CLASSIFY"
  | .APPROVE_GOVERNANCE => "APPROVE_GOVERNANCE"
  | .ACCEPT_RISK => "ACCEPT_RISK"
  | .APPROVE_DATA => "APPROVE_DATA"
  | .APPROVE_CHANGE => "APPROVE_CHANGE"
  | .INCIDENT_ACTION => "INCIDENT_ACTION"
  | .DECOMMISSION => "DECOMMISSION"

/-- Python `ECLDecisionCommand(verb)`: the member with that value, or a
`ValueError` (modelled as `none`). -/
def ECLDecisionCommand.ofString (s : String) : Option ECLDecisionCommand :=
  if s = "CLASSIFY" then some .CLASSIFY
  else if s = "APPROVE_GOVERNANCE" then some .APPROVE_GOVERNANCE
  else if s = "ACCEPT_RISK" then some .ACCEPT_RISK
  else if s = "APPROVE_DATA" then some .APPROVE_DATA
  else if s = "APPROVE_CHANGE" then some .APPROVE_CHANGE
  else if s = "INCIDENT_ACTION" then some .INCIDENT_ACTION
  else if s = "DECOMMISSION" then some .DECOMMISSION
  else none

/-- trinity_api.py `DecisionType` values, via `COMMAND_TO_DECISION_TYPE`. -/
def commandToDecisionType : ECLDecisionCommand → String
  | .CLASSIFY => "CLASSIFICATION"
  | .APPROVE_GOVERNANCE => "GOVERNANCE_APPROVAL"
  | .ACCEPT_RISK => "RISK_ACCEPTANCE"
  | .APPROVE_DATA => "DATA_APPROVAL"
  | .APPROVE_CHANGE => "CHANGE_APPROVAL"
  | .INCIDENT_ACTION => "INCIDENT_ACTION"
  | .DECOMMISSION => "DECOMMISSION"

/-- Risk-link requirement mode of a rule entry (`False` / `True` /
`"conditional"` in the source table). -/
inductive RiskReq where
  | no
  | yes
  | conditional
deriving DecidableEq, Repr

/-- One entry of the static rule table. -/
structure Rules where
  required_artifacts : List (String × Nat)
  required_roles : List String
  requires_risk_links : RiskReq
deriving DecidableEq, Repr

/-- trinity_api.py `VALIDATION_RULES` (LOCKED table). -/
def VALIDATION_RULES : ECLDecisionCommand → Rules
  | .CLASSIFY =>
    ⟨[("CDOC-SCOPE", 1), ("CDOC-CLASS", 1)], ["Compliance Owner"], .no⟩
  | .APPROVE_GOVERNANCE =>
    ⟨[("CDOC-ROLES", 1), ("CDOC-MANDATE", 1)], ["Legal Counsel", "Board Member"], .no⟩
  | .ACCEPT_RISK =>
    ⟨[("CDOC-RISK", 1), ("CDOC-MITIGATION", 1)], ["Risk Owner", "Compliance Owner"], .yes⟩
  | .APPROVE_DATA =>
    ⟨[("CDOC-DATA", 1), ("CDOC-QUALITY", 1)], ["Data Protection Officer"], .no⟩
  | .APPROVE_CHANGE =>
    ⟨[("CDOC-CHANGE", 1), ("CDOC-IMPACT", 1)], ["System Owner", "Compliance Owner"], .conditional⟩
  | .INCIDENT_ACTION =>
    ⟨[("CDOC-INCIDENT", 1), ("CDOC-ACTION", 1)], ["Incident Manager"], .yes⟩
  | .DECOMMISSION =>
    ⟨[("CDOC-DECOM", 1), ("CDOC-ARCHIVE", 1)], ["System Owner", "Legal Counsel"], .no⟩

/-- Python `str.upper()` (ASCII, which is all the code compares). -/
def pyUpper (s : String) : String :=
  ⟨s.data.map Char.toUpper⟩

/-- The read verbs (`VALID_READ_COMMANDS`). -/
def VALID_READ_COMMANDS : List String :=
  ["QUERY", "REPLAY", "VERIFY"]

/-- The decision verbs (`VALID_DECISION_COMMANDS`). -/
def VALID_DECISION_COMMANDS : List String :=
  ["CLASSIFY", "APPROVE_GOVERNANCE", "ACCEPT_RISK", "APPROVE_DATA",
   "APPROVE_CHANGE", "INCIDENT_ACTION", "DECOMMISSION"]

/-- A structured (JSON) command object: `obj.get(k)` yields `none` for a
missing key.  Values are assumed well typed, as everywhere in the source. -/
structure JsonObj where
  command : Option String
  system_id : Option String
  use_case : Option String
  artifacts : Option (List String)
  risk_links : Option (List String)
  signoff : Option (List Signoff)
  project_id : Option String
  eve_decision_id : Option String
  supersedes : Option String
  filters : Option Filters
deriving DecidableEq, Repr

/-- Result of `ECLParser.parse`: the early unknown-command return carries no
`command` key (`none` here). -/
structure ParseResult where
  success : Bool
  command : Option Command
  errors : List String
deriving DecidableEq, Repr

/-- Lift an `obj.get(k)` value into a params-dict entry: `_parse_json`
stores every key, so a missing JSON key becomes a present `None`. -/
def pfOf {α : Type} : Option α → PField α
  | none => .null
  | some a => .val a

/-- `ECLParser._parse_json`: classify the upper-cased `command` string, build
the params dict with every key present, and fail only on a decision command
without a truthy `system_id`. -/
def parseJson (obj : JsonObj) : ParseResult :=
  let command := pyUpper (obj.command.getD "")
  let is_decision := VALID_DECISION_COMMANDS.contains command
  let is_read := VALID_READ_COMMANDS.contains command
  if command = "" ∨ (¬ is_decision ∧ ¬ is_read) then
    { success := false, command := none
      errors := ["Unknown command: " ++ command] }
  else
    let params : Params :=
      { system_id := pfOf obj.system_id
        use_case := pfOf obj.use_case
        artifacts := pfOf obj.artifacts
        risk_links := pfOf obj.risk_links
        signoff := pfOf obj.signoff
        project_id := pfOf obj.project_id
        eve_decision_id := pfOf obj.eve_decision_id
        supersedes := pfOf obj.supersedes
        filters := pfOf obj.filters }
    let errors :=
      if is_decision ∧ ¬ truthyS params.system_id.get then
        ["Missing \x27system_id\x27 for decision command"]
      else []
    { success := errors.isEmpty
      command := some
        { type := if is_decision then CmdType.decision else CmdType.read
          verb := command
          params := params }
      errors := errors }

/-- Result dict of `ECLValidator.validate`. -/
structure VResult where
  valid : Bool
  errors : List String
  warnings : List String
deriving DecidableEq, Repr

/-- Artifact prefix-count errors, one per unmet `(prefix, min_count)`
requirement, counting case-insensitively. -/
def artifactErrors (verb : String) (artifacts : List String)
    (reqs : List (String × Nat)) : List String :=
  reqs.filterMap fun pr =>
    let matching := artifacts.filter fun a => startsWithCh (pyUpper a).data (pyUpper pr.1).data
    if matching.length < pr.2 then
      some (verb ++ " requires " ++ toString pr.2 ++ " artifact(s) with prefix \x27"
        ++ pr.1 ++ "\x27. Found: " ++ toString matching.length)
    else none

/-- Missing required-role errors, one per required role not among the
provided signoff roles. -/
def roleErrors (verb : String) (provided : List String)
    (reqs : List String) : List String :=
  reqs.filterMap fun r =>
    if provided.contains r then none
    else some (verb ++ " requires signoff from: \x27" ++ r ++ "\x27")

/-- `ECLValidator.validate`.  Read commands are always valid.  For decision
commands the checks run in source order; iterating a `None` where the dict
key was present with value `None` (only the structured parser produces
that) raises a `TypeError`, modelled as `Except.error`. -/
def ECLValidator.validate (command : Command) : Except String VResult :=
  if command.type = CmdType.read then .ok ⟨true, [], []⟩
  else
    match ECLDecisionCommand.ofString command.verb with
    | none => .ok ⟨false, ["Unknown decision command: " ++ command.verb], []⟩
    | some ce =>
      let params := command.params
      let rules := VALIDATION_RULES ce
      let sysErrs :=
        if truthyS params.system_id.get then []
        else [command.verb ++ " requires system_id"]
      match params.artifacts.getD [], rules.required_artifacts with
      | none, _ :: _ => .error "TypeError: \x27NoneType\x27 object is not iterable"
      | oArts, _ =>
        let artErrs := artifactErrors command.verb (oArts.getD []) rules.required_artifacts
        match params.signoff.getD [] with
        | none => .error "TypeError: \x27NoneType\x27 object is not iterable"
        | some signoffs =>
          let roleErrs := roleErrors command.verb (signoffs.map Signoff.role) rules.required_roles
          let risk_links := params.risk_links.getD []
          let riskErrs :=
            if rules.requires_risk_links = RiskReq.yes ∧ ¬ truthyL risk_links then
              [command.verb ++ " requires at least one risk_link"]
            else []
          let riskWarns :=
            if rules.requires_risk_links = RiskReq.conditional ∧ ¬ truthyL risk_links then
              [command.verb ++ " may require risk_links depending on impact"]
            else []
          let useWarns :=
            if truthyS params.use_case.get then []
            else [command.verb ++ " should include use_case for traceability"]
          let errors := sysErrs ++ artErrs ++ roleErrs ++ riskErrs
          .ok ⟨errors.isEmpty, errors, riskWarns ++ useWarns⟩

/-- Character class `[a-z0-9]` of `PROJECT_ID_REGEX`. -/
def alnumLower (c : Char) : Bool :=
  (97 ≤ c.toNat && c.toNat ≤ 122) || (48 ≤ c.toNat && c.toNat ≤ 57)

/-- Character class `[a-z0-9-]` of `PROJECT_ID_REGEX`. -/
def alnumDash (c : Char) : Bool :=
  alnumLower c || c.toNat == 45

/-- Anchored match of `^[a-z0-9][a-z0-9-]{0,62}[a-z0-9]$` against a whole
string: 2 to 64 characters, first and last in `[a-z0-9]`, middle in
`[a-z0-9-]`. -/
def strictProj (l : List Char) : Bool :=
  match l with
  | [] => false
  | [_] => false
  | c :: rest =>
    alnumLower c
      && (match rest.getLast? with
          | some lc => alnumLower lc
          | none => false)
      && rest.dropLast.all alnumDash
      && decide (l.length ≤ 64)

/-- Python `re.match(PROJECT_ID_REGEX, s)`: `$` also matches just before a
single newline at the very end of the string, so `"ab\n"` matches. -/
def projectIdMatch (s : String) : Bool :=
  strictProj s.data
    || (s.data.getLast? == some '\n' && strictProj s.data.dropLast)

/-- trinity_api.py `normalize_project_id`: absent or empty input yields the
legacy fallback, a regex match yields the input with the v2 scheme, and any
other non-empty input raises `ValueError` (modelled as `.error`). -/
def normalizeProjectId (project_id : Option String) : Except String (String × String) :=
  match project_id with
  | none => .ok ("legacy", "v1")
  | some p =>
    if p = "" then .ok ("legacy", "v1")
    else if projectIdMatch p then .ok (p, "v2")
    else .error ("Invalid project_id " ++ p ++ ". Must match: ^[a-z0-9][a-z0-9-]\x7b0,62\x7d[a-z0-9]$")

/-- Decimal digit as a character (`0`–`9`). -/
def digitChar (d : Nat) : Char :=
  Char.ofNat (48 + d)

/-- Fuel-driven most-significant-first decimal digits of a natural number
(the fuel `n + 1` always suffices because `n / 10 < n` for `n ≥ 10`). -/
def decDigitsF : Nat → Nat → List Nat
  | 0, _ => []
  | f + 1, n => if n < 10 then [n] else decDigitsF f (n / 10) ++ [n % 10]

/-- Decimal digits of `n`, most significant first (`"0"` gives `[0]`). -/
def decDigits (n : Nat) : List Nat :=
  decDigitsF (n + 1) n

/-- Python `str(n)` for a natural number. -/
def natRepr (n : Nat) : String :=
  ⟨(decDigits n).map digitChar⟩

/-- Python `f"{n:06d}"` as a digit list: zero-pad to width 6 (wider numbers
keep all their digits). -/
def pad6 (n : Nat) : List Nat :=
  List.replicate (6 - (decDigits n).length) 0 ++ decDigits n

/-- The identifier `f"EVE-{year}-{next_seq:06d}"`. -/
def formatEdi (year seq : Nat) : String :=
  "EVE-" ++ natRepr year ++ "-" ++ ⟨(pad6 seq).map digitChar⟩

/-- Character class `\d`. -/
def isDigitCh (c : Char) : Bool :=
  48 ≤ c.toNat && c.toNat ≤ 57

/-- Anchored match of `^EVE-\d{4}-\d{6}$` against a whole string. -/
def strictEdi : List Char → Bool
  | 'E' :: 'V' :: 'E' :: '-' :: a :: b :: c :: d :: '-' :: e :: f :: g :: h :: i :: j :: [] =>
    isDigitCh a && isDigitCh b && isDigitCh c && isDigitCh d && isDigitCh e
      && isDigitCh f && isDigitCh g && isDigitCh h && isDigitCh i && isDigitCh j
  | _ => false

/-- Python `re.match(r"^EVE-\d{4}-\d{6}$", s)` (with `$` also matching
before a single trailing newline). -/
def ediMatch (s : String) : Bool :=
  strictEdi s.data
    || (s.data.getLast? == some '\n' && strictEdi s.data.dropLast)

/-- Lowercase hexadecimal digit. -/
def hexDigitChar (n : Nat) : Char :=
  if n < 10 then Char.ofNat (48 + n) else Char.ofNat (87 + n)

/-- Four lowercase hex digits of a code point below 0x10000. -/
def hex4 (n : Nat) : List Char :=
  [hexDigitChar (n / 4096 % 16), hexDigitChar (n / 256 % 16),
   hexDigitChar (n / 16 % 16), hexDigitChar (n % 16)]

/-- Escape of one character under `json.dumps` with `ensure_ascii=True`
(the default used for `context_data`): the two-character escapes for
quote, backslash and common controls, `\u00xx` for other controls,
`\uxxxx` for non-ASCII, surrogate pairs above the BMP. -/
def escChar (c : Char) : List Char :=
  if c = '"' then ['\\', '"']
  else if c = '\\' then ['\\', '\\']
  else if c = '\n' then ['\\', 'n']
  else if c = '\r' then ['\\', 'r']
  else if c = '\t' then ['\\', 't']
  else if c.toNat = 8 then ['\\', 'b']
  else if c.toNat = 12 then ['\\', 'f']
  else if c.toNat < 32 ∨ 127 ≤ c.toNat then
    if c.toNat < 65536 then '\\' :: 'u' :: hex4 c.toNat
    else ('\\' :: 'u' :: hex4 (55296 + (c.toNat - 65536) / 1024))
      ++ ('\\' :: 'u' :: hex4 (56320 + (c.toNat - 65536) % 1024))
  else [c]

/-- JSON string literal of `s` under `json.dumps` defaults. -/
def jsonStr (s : String) : String :=
  "\"" ++ ⟨s.data.flatMap escChar⟩ ++ "\""

/-- JSON value of an optional string (`None` → `null`). -/
def jsonOptStr : Option String → String
  | none => "null"
  | some s => jsonStr s

/-- JSON value of an optional string list, with the default `", "`
separator of `json.dumps`. -/
def jsonOptList : Option (List String) → String
  | none => "null"
  | some l => "[" ++ joinSep ", " (l.map jsonStr) ++ "]"

/-- JSON object of one signoff dict; `sort_keys=True` puts `actor_id`
before `role`. -/
def jsonSignoff (sg : Signoff) : String :=
  "\x7b\"actor_id\": " ++ jsonStr sg.actor_id ++ ", \"role\": " ++ jsonStr sg.role ++ "\x7d"

/-- JSON value of an optional signoff list. -/
def jsonOptSignoffs : Option (List Signoff) → String
  | none => "null"
  | some l => "[" ++ joinSep ", " (l.map jsonSignoff) ++ "]"

/-- The `context_data` string of `_create_decision_object`:
`json.dumps({...}, sort_keys=True)` over the six context keys, whose sorted
order is artifacts, project_id, risk_links, signoff, system_id, use_case.
`pid` is the normalized project id; the other values are the plain
`params.get(...)` lookups. -/
def contextData (pid : String) (params : Params) : String :=
  "\x7b\"artifacts\": " ++ jsonOptList params.artifacts.get
    ++ ", \"project_id\": " ++ jsonStr pid
    ++ ", \"risk_links\": " ++ jsonOptList params.risk_links.get
    ++ ", \"signoff\": " ++ jsonOptSignoffs params.signoff.get
    ++ ", \"system_id\": " ++ jsonOptStr params.system_id.get
    ++ ", \"use_case\": " ++ jsonOptStr params.use_case.get
    ++ "\x7d"

/-- Persisted decision record (`_create_decision_object`'s dict).  The
`scope` sub-dict is flattened into `scope_system_id` / `scope_use_case`
(they come from `params.get(k, "")`, so a present-`None` key stores `None`).
`superseded_by` is `none` while the key is absent; `Database.supersede`
adds it. -/
structure Decision where
  eve_decision_id : String
  project_id : String
  hash_version : String
  decision_type : String
  status : String
  created_at : String
  executed_by : List Executor
  scope_system_id : Option String
  scope_use_case : Option String
  source_artifacts : Option (List String)
  risk_links : Option (List String)
  rule_set_version : Hash
  context_hash : Hash
  supersedes : Option String
  superseded_by : Option String
deriving DecidableEq, Repr

/-- Digest of `json.dumps(decision_obj, sort_keys=True)` as sealed into the
vault (the dump is injective on the record's fields). -/
def Decision.digest (d : Decision) : Hash :=
  Hash.decisionDigest d.eve_decision_id d.project_id d.hash_version
    d.decision_type d.status d.created_at d.executed_by d.scope_system_id
    d.scope_use_case d.source_artifacts d.risk_links d.rule_set_version
    d.context_hash d.supersedes

/-- Vault entry of trinity_api.py `Database.seal_to_vault`. -/
structure VaultEntry where
  eve_decision_id : String
  evidence_type : String
  payload_hash : Hash
  sealed_at : String
  vault_proof : Hash
deriving DecidableEq, Repr

/-- Artifact store entry (trinity_api.py `Database` artifact helpers). -/
structure ArtifactRec where
  artifact_id : String
  status : String
  content : Option String
  created_at : String
  eve_decision_id : Option String
  frozen_at : Option String
deriving DecidableEq, Repr

/-- The JSON database state (`{"edi_sequence": {}, "decisions": [],
"vault": [], "artifacts": []}`); `edi_sequence` keys are `str(year)`,
modelled by the year itself since `str` is injective on years. -/
structure Db where
  edi_sequence : List (Nat × Nat)
  decisions : List Decision
  vault : List VaultEntry
  artifacts : List ArtifactRec
deriving DecidableEq, Repr

/-- Fresh database (`Database._load` fallback). -/
def Db.empty : Db :=
  ⟨[], [], [], []⟩

/-- Python `self.state["edi_sequence"].get(str(year), 0)`. -/
def seqLookup (m : List (Nat × Nat)) (y : Nat) : Nat :=
  match m.find? (fun p => p.1 == y) with
  | none => 0
  | some p => p.2

/-- Python `self.state["edi_sequence"][str(year)] = v` (update in place or
insert; dict keys are unique, so updating the first match is exact). -/
def seqSet (m : List (Nat × Nat)) (y v : Nat) : List (Nat × Nat) :=
  match m with
  | [] => [(y, v)]
  | p :: rest => if p.1 = y then (y, v) :: rest else p :: seqSet rest y v

/-- Core of `Database.generate_next_edi`: read the year's counter, add one,
store it back. -/
def genNextSeq (m : List (Nat × Nat)) (y : Nat) : Nat × List (Nat × Nat) :=
  let current := seqLookup m y
  (current + 1, seqSet m y (current + 1))

/-- `Database.generate_next_edi`, with the current year threaded in. -/
def Db.generateNextEdi (db : Db) (year : Nat) : String × Db :=
  let sm := genNextSeq db.edi_sequence year
  (formatEdi year sm.1, { db with edi_sequence := sm.2 })

/-- `Database.insert_decision` (append). -/
def Db.insertDecision (db : Db) (d : Decision) : Db :=
  { db with decisions := db.decisions ++ [d] }

/-- `Database.get_decision` (first record with the given id). -/
def Db.getDecision (db : Db) (eid : String) : Option Decision :=
  db.decisions.find? fun d => d.eve_decision_id == eid

/-- Loop of `Database.supersede`: flip the first record with the old id to
SUPERSEDED and set its `superseded_by`, leaving the rest untouched. -/
def supersedeUpd (old new : String) : List Decision → List Decision
  | [] => []
  | d :: rest =>
    if d.eve_decision_id = old then
      { d with status := "SUPERSEDED", superseded_by := some new } :: rest
    else d :: supersedeUpd old new rest

/-- `Database.supersede`. -/
def Db.supersede (db : Db) (old new : String) : Db :=
  { db with decisions := supersedeUpd old new db.decisions }

/-- `Database.seal_to_vault`: reject ids that fail the `EVE-` pattern
(raising `ValueError`), else hash the payload, derive the truncated vault
proof and append the entry. -/
def Db.sealToVault (db : Db) (eid : String) (etype : String) (payload : Decision)
    (ts : String) : Except String (VaultEntry × Db) :=
  if eid = "" ∨ ¬ ediMatch eid then
    .error ("REJECTED: Invalid EVE Decision ID: " ++ eid)
  else
    let ph := payload.digest
    let entry : VaultEntry :=
      { eve_decision_id := eid
        evidence_type := etype
        payload_hash := ph
        sealed_at := ts
        vault_proof := Hash.vaultProof ph ts }
    .ok (entry, { db with vault := db.vault ++ [entry] })

/-- Loop of `Database.link_artifact_to_decision`: mark the first matching
artifact Executed and point it at the decision. -/
def linkUpd (aid eid : String) : List ArtifactRec → List ArtifactRec
  | [] => []
  | a :: rest =>
    if a.artifact_id = aid then
      { a with status := "Executed", eve_decision_id := some eid } :: rest
    else a :: linkUpd aid eid rest

/-- `Database.link_artifact_to_decision`. -/
def Db.linkArtifact (db : Db) (aid eid : String) : Db :=
  { db with artifacts := linkUpd aid eid db.artifacts }

/-- The artifact-linking loop at the end of `_execute_decision`. -/
def Db.linkAll (db : Db) (arts : List String) (eid : String) : Db :=
  arts.foldl (fun acc a => acc.linkArtifact a eid) db

/-- `DecisionEngine._create_decision_object`, with the creation timestamp
threaded in.  Failure order follows the source: `normalize_project_id` may
raise `ValueError`; building the result dict then evaluates
`COMMAND_TO_DECISION_TYPE[ECLDecisionCommand(verb)]` (a `ValueError` on an
unknown verb) and iterates `params.get("signoff", [])` (a `TypeError` when
the key is present with `None`). -/
def createDecisionObject (eid : String) (command : Command) (ts : String) :
    Except String Decision :=
  let params := command.params
  match normalizeProjectId params.project_id.get with
  | .error e => .error e
  | .ok pv =>
    let context_data := contextData pv.1 params
    match ECLDecisionCommand.ofString command.verb with
    | none => .error ("ValueError: \x27" ++ command.verb ++ "\x27 is not a valid ECLDecisionCommand")
    | some ce =>
      match params.signoff.getD [] with
      | none => .error "TypeError: \x27NoneType\x27 object is not iterable"
      | some sgs =>
        .ok
          { eve_decision_id := eid
            project_id := pv.1
            hash_version := pv.2
            decision_type := commandToDecisionType ce
            status := "EXECUTED"
            created_at := ts
            executed_by := sgs.map fun s => ⟨s.role, s.actor_id, "explicit_signoff"⟩
            scope_system_id := params.system_id.getD ""
            scope_use_case := params.use_case.getD ""
            source_artifacts := params.artifacts.getD []
            risk_links := params.risk_links.get
            rule_set_version := Hash.rulesetVersion
            context_hash := Hash.sha256 context_data
            supersedes := params.supersedes.get
            superseded_by := none }

/-- Result dict of the engine's execute paths (fields that a given return
statement omits are `none` / `[]`).  The payload-shaping of the read verbs
(`data` sub-dicts) is elided: no claim constrains it. -/
structure ExecResult where
  success : Bool
  eve_decision_id : Option String
  vault_proof : Option Hash
  sealed_at : Option String
  errors : List String
  warnings : Option (List String)
deriving DecidableEq, Repr

/-- Failure result carrying only errors. -/
def ExecResult.fail (errors : List String) : ExecResult :=
  ⟨false, none, none, none, errors, none⟩

/-- `DecisionEngine._execute_supersede`: the target must exist and be
EXECUTED (checked before any mutation); then allocate an id, create and
insert the new decision, flip the target, seal to vault. -/
def executeSupersede (db : Db) (command : Command) (warnings : List String)
    (year : Nat) (ts : String) : Except String ExecResult × Db :=
  match command.params.supersedes.get with
  | none => (.error "KeyError: \x27supersedes\x27", db)
  | some target =>
    match db.getDecision target with
    | none => (.ok (ExecResult.fail ["Decision not found: " ++ target]), db)
    | some original =>
      if original.status ≠ "EXECUTED" then
        (.ok (ExecResult.fail ["Cannot supersede " ++ original.status ++ " decision"]), db)
      else
        let edb := db.generateNextEdi year
        match createDecisionObject edb.1 command ts with
        | .error e => (.error e, edb.2)
        | .ok dec =>
          let db2 := edb.2.insertDecision dec
          let db3 := db2.supersede target edb.1
          match db3.sealToVault edb.1 "DECISION" dec ts with
          | .error e => (.error e, db3)
          | .ok entryDb =>
            (.ok
              { success := true
                eve_decision_id := some edb.1
                vault_proof := some entryDb.1.vault_proof
                sealed_at := some entryDb.1.sealed_at
                errors := []
                warnings := some (("Superseded: " ++ target) :: warnings) },
              entryDb.2)

/-- `DecisionEngine._execute_decision`: route to the supersede path when the
`supersedes` param is truthy; otherwise allocate the id first (the counter
advances and is saved even if a later step raises), create the record,
insert it, seal it, link the listed artifacts. -/
def executeDecision (db : Db) (command : Command) (warnings : List String)
    (year : Nat) (ts : String) : Except String ExecResult × Db :=
  if truthyS command.params.supersedes.get then
    executeSupersede db command warnings year ts
  else
    let edb := db.generateNextEdi year
    match createDecisionObject edb.1 command ts with
    | .error e => (.error e, edb.2)
    | .ok dec =>
      let db2 := edb.2.insertDecision dec
      match db2.sealToVault edb.1 "DECISION" dec ts with
      | .error e => (.error e, db2)
      | .ok entryDb =>
        match command.params.artifacts.getD [] with
        | none => (.error "TypeError: \x27NoneType\x27 object is not iterable", entryDb.2)
        | some arts =>
          (.ok
            { success := true
              eve_decision_id := some edb.1
              vault_proof := some entryDb.1.vault_proof
              sealed_at := some entryDb.1.sealed_at
              errors := []
              warnings := if warnings.isEmpty then none else some warnings },
            entryDb.2.linkAll arts edb.1)

/-- `DecisionEngine._execute_read`, reduced to its success flag and errors:
replay fails on a missing decision, verify and query always succeed, other
verbs are unknown.  All three are read-only, which is the only property a
claim relies on. -/
def executeRead (db : Db) (command : Command) : ExecResult :=
  if command.verb = "REPLAY" then
    match command.params.eve_decision_id.get with
    | none => ExecResult.fail ["Decision not found: None"]
    | some eid =>
      match db.getDecision eid with
      | none => ExecResult.fail ["Decision not found: " ++ eid]
      | some _ => ⟨true, none, none, none, [], none⟩
  else if command.verb = "VERIFY" then ⟨true, none, none, none, [], none⟩
  else if command.verb = "QUERY" then ⟨true, none, none, none, [], none⟩
  else ExecResult.fail ["Unknown read command: " ++ command.verb]

/-- `DecisionEngine.execute` from the parse result on: bail out on parse
failure, propagate an API-level `project_id` into the params, dispatch
reads, then rule-validate and only on success fall through to
`_execute_decision`. -/
def DecisionEngine.execute (db : Db) (pr : ParseResult) (apiProjectId : Option String)
    (year : Nat) (ts : String) : Except String ExecResult × Db :=
  if ¬ pr.success then (.ok (ExecResult.fail pr.errors), db)
  else
    match pr.command with
    | none => (.error "KeyError: \x27command\x27", db)
    | some command0 =>
      let command :=
        match apiProjectId with
        | none => command0
        | some p => { command0 with params := { command0.params with project_id := .val p } }
      if command.type = CmdType.read then (.ok (executeRead db command), db)
      else
        match ECLValidator.validate command with
        | .error e => (.error e, db)
        | .ok validation =>
          if ¬ validation.valid then
            (.ok ⟨false, none, none, none, validation.errors, some validation.warnings⟩, db)
          else
            executeDecision db command validation.warnings year ts

/-- A successful parse result wrapping a command (the shape `execute`
receives from either parser on success). -/
def mkParse (cmd : Command) : ParseResult :=
  ⟨true, some cmd, []⟩

/-- Value of a most-significant-first digit list (left inverse of the
decimal rendering, used to prove the id format injective). -/
def ofDigits (l : List Nat) : Nat :=
  l.foldl (fun a d => a * 10 + d) 0

/-- Repeated `generate_next_edi` sequence allocation: `n` successive
allocations for year `y`, returning the allocated numbers in order. -/
def allocN : List (Nat × Nat) → Nat → Nat → List Nat × List (Nat × Nat)
  | m, _, 0 => ([], m)
  | m, y, n + 1 =>
    let sm := genNextSeq m y
    let rest := allocN sm.2 y n
    (sm.1 :: rest.1, rest.2)

/-- Invariant of a vault whose state was produced solely by `seal` calls:
every record re-hashes to its stored hash, consecutive records are chained,
and `last_hash` is the last record's content hash (when any exists). -/
def SealedInv (v : XVault) : Prop :=
  (∀ e ∈ v.evidence_chain, e.verify = true) ∧
  List.Chain' (fun a b => b.previous_hash = a.content_hash) v.evidence_chain ∧
  (v.evidence_chain = [] ∨
    ∃ e, v.evidence_chain.getLast? = some e ∧ v.last_hash = e.content_hash)

/-- Characters of the `context_data` JSON up to and including the quote that
opens the `project_id` value. -/
def ctxPre (params : Params) : List Char :=
  ("\x7b\"artifacts\": " ++ jsonOptList params.artifacts.get
    ++ ", \"project_id\": \"").data

/-- Characters of the `context_data` JSON after the quote that closes the
`project_id` value. -/
def ctxSuf (params : Params) : List Char :=
  (", \"risk_links\": " ++ jsonOptList params.risk_links.get
    ++ ", \"signoff\": " ++ jsonOptSignoffs params.signoff.get
    ++ ", \"system_id\": " ++ jsonOptStr params.system_id.get
    ++ ", \"use_case\": " ++ jsonOptStr params.use_case.get
    ++ "\x7d").data

/-- Sample seal inputs for concrete vault runs. -/
def sealInpA : SealInput :=
  ⟨EvidenceType.system_event, "content-one", "t1", "id1", []⟩

/-- Second sample seal input. -/
def sealInpB : SealInput :=
  ⟨EvidenceType.authorization_decision, "content-two", "t2", "id2", []⟩

/-- Vault obtained from two seal calls on a fresh ledger. -/
def sealedPairVault : XVault :=
  XVault.sealMany (XVault.init "org" "key") [sealInpA, sealInpB]

/-- The first record of `sealedPairVault`, written out. -/
def sealedRecA : EvidenceObject :=
  ⟨"id1", EvidenceType.system_event, "t1", Hash.sha256 "content-one",
   "content-one", [], Hash.raw "genesis",
   Hash.sign (Hash.sha256 "content-one") "t1" "org" "key", []⟩

/-- Structured command with `command` and `system_id` only: the JSON parser
materializes every other params key with value `None`. -/
def structuredClassifyNoLists : JsonObj :=
  ⟨some "CLASSIFY", some "sys-1", none, none, none, none, none, none, none, none⟩

/-- Well-formed CLASSIFY params except for the partition id, which is
invalid (uppercase). -/
def invalidPartitionParams : Params :=
  { Params.empty with
      system_id := .val "s1"
      artifacts := .val ["CDOC-SCOPE-1", "CDOC-CLASS-1"]
      signoff := .val [⟨"Compliance Owner", "joakim"⟩]
      project_id := .val "BAD" }

/-- CLASSIFY command carrying the invalid partition id. -/
def invalidPartitionCmd : Command :=
  ⟨CmdType.decision, "CLASSIFY", invalidPartitionParams⟩

/-- The same CLASSIFY params with a valid partition id. -/
def validClassifyParams : Params :=
  { invalidPartitionParams with project_id := .val "alpha" }

/-- Fully valid CLASSIFY command. -/
def validClassifyCmd : Command :=
  ⟨CmdType.decision, "CLASSIFY", validClassifyParams⟩

/-- Result of running the valid CLASSIFY command on a fresh database. -/
def validRunRes : ExecResult :=
  match (DecisionEngine.execute Db.empty (mkParse validClassifyCmd) none 2025 "ts").1 with
  | .ok r => r
  | .error _ => ExecResult.fail []

/-- A pre-existing executed decision used as a supersede target. -/
def executedSample : Decision :=
  ⟨"EVE-2024-000007", "legacy", "v1", "CLASSIFICATION", "EXECUTED", "t0", [],
   some "s1", some "", none, none, Hash.rulesetVersion, Hash.sha256 "ctx0", none, none⟩

/-- Database holding exactly the executed sample decision. -/
def dbWithExecuted : Db :=
  ⟨[], [executedSample], [], []⟩

/-- Decision command that names a supersede target but would fail CLASSIFY
rule validation (no artifacts, no signoff). -/
def supersedeNoArtifactsCmd : Command :=
  ⟨CmdType.decision, "CLASSIFY",
   { Params.empty with
       system_id := .val "s1"
       supersedes := .val "EVE-2024-000007" }⟩

/-- Rule-valid CLASSIFY command that supersedes the sample decision. -/
def supersedeValidCmd : Command :=
  ⟨CmdType.decision, "CLASSIFY",
   { validClassifyParams with supersedes := .val "EVE-2024-000007" }⟩

/-- The decision record created by the sample supersede run. -/
def supersededNewDecision : Decision :=
  match createDecisionObject (dbWithExecuted.generateNextEdi 2025).1 supersedeValidCmd "ts" with
  | .ok d => d
  | .error _ => executedSample

/-- The five arbitrary content hashes of the spec's Merkle scenario. -/
def fiveLeaves : List Hash :=
  [Hash.raw "a", Hash.raw "b", Hash.raw "c", Hash.raw "d", Hash.raw "e"]

/-- Root of the five-leaf tree as the code builds it. -/
def fiveRoot : Hash :=
  Hash.pair
    (Hash.pair (Hash.pair (Hash.raw "a") (Hash.raw "b"))
      (Hash.pair (Hash.raw "c") (Hash.raw "d")))
    (Hash.pair (Hash.pair (Hash.raw "e") (Hash.raw "e"))
      (Hash.pair (Hash.raw "e") (Hash.raw "e")))

/-- Fuel irrelevance of the decimal digit function: any fuel above the
number computes the same digits. -/
theorem decDigitsF_mono : ∀ (f g n : Nat), n < f → n < g → decDigitsF f n = decDigitsF g n := by
  intro f
  induction f with
  | zero => intro g n h; omega
  | succ f ih =>
    intro g n hf hg
    cases g with
    | zero => omega
    | succ g =>
      simp only [decDigitsF]
      by_cases h10 : n < 10
      · simp [h10]
      · have hdiv : n / 10 < n := Nat.div_lt_self (by omega) (by omega)
        simp only [if_neg h10]
        rw [ih g (n / 10) (by omega) (by omega)]

/-- Unfolding equation of `decDigits`. -/
theorem decDigits_eq (n : Nat) :
    decDigits n = if n < 10 then [n] else decDigits (n / 10) ++ [n % 10] := by
  by_cases h10 : n < 10
  · simp only [decDigits, decDigitsF, if_pos h10]
  · have hdiv : n / 10 < n := Nat.div_lt_self (by omega) (by omega)
    have h1 : decDigits n = decDigitsF n (n / 10) ++ [n % 10] := by
      unfold decDigits
      simp only [decDigitsF, if_neg h10]
    rw [if_neg h10, h1, decDigitsF_mono n (n / 10 + 1) (n / 10) (by omega) (by omega)]
    rfl

/-- Folding one more digit multiplies the accumulated value by ten. -/
theorem ofDigits_append (l : List Nat) (d : Nat) :
    ofDigits (l ++ [d]) = ofDigits l * 10 + d := by
  simp [ofDigits, List.foldl_append]

/-- The digit-list rendering is a section of `ofDigits`. -/
theorem ofDigits_decDigits (n : Nat) : ofDigits (decDigits n) = n := by
  induction n using Nat.strong_induction_on with
  | _ n ih =>
    rw [decDigits_eq]
    by_cases h10 : n < 10
    · simp [h10, ofDigits]
    · simp only [if_neg h10]
      rw [ofDigits_append, ih (n / 10) (Nat.div_lt_self (by omega) (by omega))]
      omega

/-- Leading zeros do not change the value of a digit list. -/
theorem ofDigits_replicate (k : Nat) (l : List Nat) :
    ofDigits (List.replicate k 0 ++ l) = ofDigits l := by
  induction k with
  | zero => simp
  | succ k ih =>
    simpa [List.replicate_succ, ofDigits] using ih

/-- The zero-padded sequence rendering is a section of `ofDigits`. -/
theorem ofDigits_pad6 (n : Nat) : ofDigits (pad6 n) = n := by
  unfold pad6
  rw [ofDigits_replicate, ofDigits_decDigits]

/-- Every rendered decimal digit is below ten. -/
theorem decDigits_lt (n : Nat) : ∀ d ∈ decDigits n, d < 10 := by
  induction n using Nat.strong_induction_on with
  | _ n ih =>
    rw [decDigits_eq]
    by_cases h10 : n < 10
    · intro d hd
      simp [h10] at hd
      omega
    · intro d hd
      simp only [if_neg h10, List.mem_append, List.mem_singleton] at hd
      rcases hd with h | h
      · exact ih (n / 10) (Nat.div_lt_self (by omega) (by omega)) d h
      · omega

/-- Every digit of the padded rendering is below ten. -/
theorem pad6_lt (n : Nat) : ∀ d ∈ pad6 n, d < 10 := by
  intro d hd
  rcases List.mem_append.mp hd with h | h
  · have := List.eq_of_mem_replicate h
    omega
  · exact decDigits_lt n d h

/-- Code point of a decimal digit character. -/
theorem digitChar_toNat (d : Nat) (h : d < 10) : (digitChar d).toNat = 48 + d := by
  interval_cases d <;> decide

/-- Digit characters determine their digits (below ten). -/
theorem map_digitChar_inj : ∀ (l1 l2 : List Nat), (∀ d ∈ l1, d < 10) → (∀ d ∈ l2, d < 10) →
    l1.map digitChar = l2.map digitChar → l1 = l2 := by
  intro l1
  induction l1 with
  | nil =>
    intro l2 _ _ h
    cases l2 with
    | nil => rfl
    | cons b bs => simp at h
  | cons a as ih =>
    intro l2 h1 h2 h
    cases l2 with
    | nil => simp at h
    | cons b bs =>
      simp only [List.map_cons, List.cons.injEq] at h
      have ha : a < 10 := h1 a (by simp)
      have hb : b < 10 := h2 b (by simp)
      have hta : (digitChar a).toNat = (digitChar b).toNat := by rw [h.1]
      rw [digitChar_toNat a ha, digitChar_toNat b hb] at hta
      have hab : a = b := by omega
      subst hab
      rw [ih bs (fun d hd => h1 d (by simp [hd])) (fun d hd => h2 d (by simp [hd])) h.2]

/-- For a fixed year, the `EVE-<year>-<seq:06d>` rendering is injective in
the sequence number. -/
theorem formatEdi_seq_inj (y a b : Nat) (h : formatEdi y a = formatEdi y b) : a = b := by
  have hd := congrArg String.data h
  simp only [formatEdi, natRepr, String.data_append] at hd
  have hmap : (pad6 a).map digitChar = (pad6 b).map digitChar :=
    List.append_cancel_left hd
  have hp : pad6 a = pad6 b := map_digitChar_inj _ _ (pad6_lt a) (pad6_lt b) hmap
  have := congrArg ofDigits hp
  rwa [ofDigits_pad6, ofDigits_pad6] at this

/-- Reading back the year just written into the sequence dict. -/
theorem seqLookup_seqSet_self (m : List (Nat × Nat)) (y v : Nat) :
    seqLookup (seqSet m y v) y = v := by
  induction m with
  | nil => simp [seqSet, seqLookup, List.find?]
  | cons p rest ih =>
    simp only [seqSet]
    by_cases h : p.1 = y
    · rw [if_pos h]
      unfold seqLookup
      rw [List.find?_cons_of_pos _ (by simp)]
    · rw [if_neg h]
      unfold seqLookup
      rw [List.find?_cons_of_neg _ (by simp [h])]
      exact ih

/-- Writing one year's counter leaves every other year's value unchanged. -/
theorem seqLookup_seqSet_ne (m : List (Nat × Nat)) (y y2 v : Nat) (h : y2 ≠ y) :
    seqLookup (seqSet m y v) y2 = seqLookup m y2 := by
  induction m with
  | nil =>
    simp only [seqSet]
    unfold seqLookup
    rw [List.find?_cons_of_neg _ (by simp [Ne.symm h])]
  | cons p rest ih =>
    simp only [seqSet]
    by_cases hp : p.1 = y
    · rw [if_pos hp]
      unfold seqLookup
      rw [List.find?_cons_of_neg _ (by simp [Ne.symm h])]
      rw [List.find?_cons_of_neg _ (by simp [hp, Ne.symm h])]
    · rw [if_neg hp]
      by_cases hq : p.1 = y2
      · unfold seqLookup
        rw [List.find?_cons_of_pos _ (by simp [hq]), List.find?_cons_of_pos _ (by simp [hq])]
      · unfold seqLookup
        rw [List.find?_cons_of_neg _ (by simp [hq]), List.find?_cons_of_neg _ (by simp [hq])]
        exact ih

/-- Behaviour of `n` successive sequence allocations for one year: the
allocated numbers are the consecutive run starting just above the stored
counter, the counter advances by `n`, and other years are untouched. -/
theorem allocN_spec (y : Nat) : ∀ (n : Nat) (m : List (Nat × Nat)),
    (allocN m y n).1 = List.range' (seqLookup m y + 1) n ∧
    seqLookup (allocN m y n).2 y = seqLookup m y + n ∧
    ∀ y2, y2 ≠ y → seqLookup (allocN m y n).2 y2 = seqLookup m y2 := by
  intro n
  induction n with
  | zero => intro m; simp [allocN, List.range']
  | succ n ih =>
    intro m
    simp only [allocN, genNextSeq]
    have h1 := seqLookup_seqSet_self m y (seqLookup m y + 1)
    obtain ⟨ha, hb, hc⟩ := ih (seqSet m y (seqLookup m y + 1))
    refine ⟨?_, ?_, ?_⟩
    · rw [ha, h1, List.range'_succ]
    · rw [hb, h1]
      omega
    · intro y2 hy2
      rw [hc y2 hy2, seqLookup_seqSet_ne m y y2 _ hy2]

/-- C8.  Sequence monotonicity: successive allocations within one year are
the strictly increasing run `c+1, …, c+n` (never reused in the run), the
stored counter after them is `c+n`, year `y+1` is untouched by them, its
next allocation is its own stored counter plus one, and starts at 1 when
that year is fresh — independent of year `y`'s counter. -/
theorem sequence_monotonicity (m : List (Nat × Nat)) (y n : Nat) :
    (allocN m y n).1 = List.range' (seqLookup m y + 1) n ∧
    List.Pairwise (· < ·) (allocN m y n).1 ∧
    (allocN m y n).1.Nodup ∧
    seqLookup (allocN m y n).2 y = seqLookup m y + n ∧
    seqLookup (allocN m y n).2 (y + 1) = seqLookup m (y + 1) ∧
    (genNextSeq (allocN m y n).2 (y + 1)).1 = seqLookup m (y + 1) + 1 ∧
    (seqLookup m (y + 1) = 0 → (genNextSeq (allocN m y n).2 (y + 1)).1 = 1) := by
  obtain ⟨ha, hb, hc⟩ := allocN_spec y n m
  have hy1 : (y : Nat) + 1 ≠ y := by omega
  have hpair : List.Pairwise (· < ·) (allocN m y n).1 := by
    rw [ha]
    exact List.pairwise_lt_range' _ n 1 (by omega)
  have hnext : (genNextSeq (allocN m y n).2 (y + 1)).1 = seqLookup m (y + 1) + 1 := by
    simp only [genNextSeq]
    rw [hc (y + 1) hy1]
  refine ⟨ha, hpair, hpair.imp Nat.ne_of_lt, hb, hc (y + 1) hy1, hnext, ?_⟩
  intro h0
  rw [hnext, h0]

/-- C8 witness: three allocations in year 2025 on a fresh store yield
1, 2, 3 with the counter at 3, and year 2026 then starts at 1. -/
theorem sequence_monotonicity_witness :
    (allocN [] 2025 3).1 = [1, 2, 3] ∧
    (allocN [] 2025 3).1.Nodup ∧
    seqLookup (allocN [] 2025 3).2 2025 = 3 ∧
    (genNextSeq (allocN [] 2025 3).2 2026).1 = 1 := by
  obtain ⟨ha, _, hnd, hb, _, _, hfresh⟩ := sequence_monotonicity [] 2025 3
  refine ⟨?_, hnd, ?_, ?_⟩
  · rw [ha]
    decide
  · rw [hb]
    decide
  · exact hfresh (by decide)

/-- C6.  Scope normalization: absence or emptiness of the partition id
yields the reserved fallback partition with the legacy scheme; any other
string matching the partition regex — the fallback name included — is
returned verbatim with the current scheme; every other non-empty string is
a hard `ValueError`. -/
theorem scope_normalization :
    normalizeProjectId none = .ok ("legacy", "v1") ∧
    normalizeProjectId (some "") = .ok ("legacy", "v1") ∧
    (∀ s : String, s ≠ "" → projectIdMatch s = true →
      normalizeProjectId (some s) = .ok (s, "v2")) ∧
    normalizeProjectId (some "legacy") = .ok ("legacy", "v2") ∧
    (∀ s : String, s ≠ "" → projectIdMatch s = false →
      normalizeProjectId (some s) =
        .error ("Invalid project_id " ++ s
          ++ ". Must match: ^[a-z0-9][a-z0-9-]\x7b0,62\x7d[a-z0-9]$")) := by
  refine ⟨rfl, by decide, ?_, by decide, ?_⟩
  · intro s hne hm
    simp [normalizeProjectId, hne, hm]
  · intro s hne hm
    simp [normalizeProjectId, hne, hm]

/-- C6 witness: a valid explicit id gets the current scheme, an invalid one
is rejected. -/
theorem scope_normalization_witness :
    normalizeProjectId (some "medical-core") = .ok ("medical-core", "v2") ∧
    normalizeProjectId (some "BAD") =
      .error ("Invalid project_id BAD. Must match: ^[a-z0-9][a-z0-9-]\x7b0,62\x7d[a-z0-9]$") :=
  ⟨scope_normalization.2.2.1 "medical-core" (by decide) (by decide),
   scope_normalization.2.2.2.2 "BAD" (by decide) (by decide)⟩

/-- C9 (code bug).  A structured CLASSIFY instruction carrying only
`command` and `system_id` parses successfully, but `validate` then iterates
the `None` stored for the absent `artifacts` key (`params.get("artifacts",
[])` returns the stored `None`, not the default) and raises `TypeError`
instead of returning a `\x7bvalid, errors, warnings\x7d` result; through the
engine the request dies with the exception before any ledger access. -/
theorem validate_raises_on_structured_missing_lists :
    (parseJson structuredClassifyNoLists).success = true ∧
    ((parseJson structuredClassifyNoLists).command.map ECLValidator.validate) =
      some (.error "TypeError: \x27NoneType\x27 object is not iterable") ∧
    DecisionEngine.execute Db.empty (parseJson structuredClassifyNoLists) none 2025 "ts" =
      (.error "TypeError: \x27NoneType\x27 object is not iterable", Db.empty) := by
  refine ⟨by decide, by decide, by decide⟩

/-- C3 (code bug).  The Merkle proof round-trip fails when the leaf's path
crosses a duplicated last node: for the 3-leaf tree, `get_proof(2)` emits
no sibling for level 0 (the sibling index is out of range, although the
parent hashes the node with itself), so replaying the proof yields
`pair (pair a b) c` instead of the recorded root `pair (pair a b) (pair c c)`
and verification returns false.  The spec's own 5-leaf index-2 scenario
avoids the defect: there the replay equals the root exactly for the correct
claimed leaf, so any different claimed leaf fails. -/
theorem merkle_roundtrip_fails_on_duplicated_node :
    rootOf [Hash.raw "a", Hash.raw "b", Hash.raw "c"] =
      some (Hash.pair (Hash.pair (Hash.raw "a") (Hash.raw "b"))
        (Hash.pair (Hash.raw "c") (Hash.raw "c"))) ∧
    getProofLeaves [Hash.raw "a", Hash.raw "b", Hash.raw "c"] 2 =
      [(Hash.pair (Hash.raw "a") (Hash.raw "b"), Pos.left)] ∧
    verifyProof (Hash.raw "c") (getProofLeaves [Hash.raw "a", Hash.raw "b", Hash.raw "c"] 2)
      (Hash.pair (Hash.pair (Hash.raw "a") (Hash.raw "b"))
        (Hash.pair (Hash.raw "c") (Hash.raw "c"))) = false ∧
    rootOf fiveLeaves = some fiveRoot ∧
    (∀ x : Hash,
      verifyProof x (getProofLeaves fiveLeaves 2) fiveRoot = (x == Hash.raw "c")) := by
  refine ⟨by decide, by decide, by decide, by decide, ?_⟩
  intro x
  have hp : getProofLeaves fiveLeaves 2 =
      [(Hash.raw "d", Pos.right),
       (Hash.pair (Hash.raw "a") (Hash.raw "b"), Pos.left),
       (Hash.pair (Hash.pair (Hash.raw "e") (Hash.raw "e"))
         (Hash.pair (Hash.raw "e") (Hash.raw "e")), Pos.right)] := by decide
  rw [hp]
  by_cases hx : x = Hash.raw "c"
  · subst hx
    simp [verifyProof, proofStep, fiveRoot]
  · have hne : Hash.pair
        (Hash.pair (Hash.pair (Hash.raw "a") (Hash.raw "b")) (Hash.pair x (Hash.raw "d")))
        (Hash.pair (Hash.pair (Hash.raw "e") (Hash.raw "e"))
          (Hash.pair (Hash.raw "e") (Hash.raw "e"))) ≠ fiveRoot := by
      simp [fiveRoot, hx]
    simp only [verifyProof, List.foldl_cons, List.foldl_nil, proofStep]
    rw [beq_eq_false_iff_ne.mpr hne, beq_eq_false_iff_ne.mpr hx]

/-- C10.  `verify_evidence` succeeds exactly when the record re-hashes to
its stored content hash and — only in case the stored Merkle path is
non-empty and the ledger's tree has a root — the seal-time proof replays to
the current root; and the first record sealed into a fresh ledger carries an
empty Merkle path and passes on the content check alone. -/
theorem verify_evidence_characterization :
    (∀ (v : XVault) (e : EvidenceObject),
      v.verifyEvidence e = true ↔
        (e.verify = true ∧
          (e.merkle_path = [] ∨ v.root = none ∨
            ∃ r, v.root = some r ∧ verifyProof e.content_hash e.merkle_path r = true))) ∧
    (∀ (o k : String) (inp : SealInput),
      ((XVault.init o k).seal inp).1.merkle_path = [] ∧
      ((XVault.init o k).seal inp).2.verifyEvidence ((XVault.init o k).seal inp).1 = true) := by
  constructor
  · intro v e
    by_cases hv : e.verify = true
    · cases hp : e.merkle_path with
      | nil => simp [XVault.verifyEvidence, hv, hp]
      | cons p ps =>
        cases hr : v.root with
        | none => simp [XVault.verifyEvidence, hv, hp, hr]
        | some r => simp [XVault.verifyEvidence, hv, hp, hr]
    · simp [XVault.verifyEvidence, hv]
  · intro o k inp
    have hpath : ((XVault.init o k).seal inp).1.merkle_path = [] := rfl
    have hv : ((XVault.init o k).seal inp).1.verify = true := by
      simp [XVault.seal, XVault.init, EvidenceObject.verify]
    exact ⟨hpath, by simp [XVault.verifyEvidence, hv, hpath]⟩

/-- The per-record walk of `verify_chain` only reads the predecessor's
content hash, never its other fields. -/
theorem chainErrsAux_congr (p q : EvidenceObject) (h : p.content_hash = q.content_hash)
    (l : List EvidenceObject) : chainErrsAux p l = chainErrsAux q l := by
  cases l with
  | nil => rfl
  | cons e rest => simp [chainErrsAux, prevErrs, h]

/-- On a well-formed suffix (all content hashes valid, all links correct),
the chain walk reports nothing. -/
theorem chainErrsAux_nil (p : EvidenceObject) (l : List EvidenceObject)
    (hok : ∀ e ∈ l, e.verify = true)
    (hch : List.Chain' (fun a b => b.previous_hash = a.content_hash) (p :: l)) :
    chainErrsAux p l = [] := by
  induction l generalizing p with
  | nil => rfl
  | cons e rest ih =>
    have h1 : e.previous_hash = p.content_hash := (List.chain'_cons.mp hch).1
    have h2 := (List.chain'_cons.mp hch).2
    have hce : contentErrs e = [] := by simp [contentErrs, hok e (by simp)]
    have hpe : prevErrs p e = [] := by simp [prevErrs, h1]
    simp only [chainErrsAux, hce, hpe, List.nil_append]
    exact ih e (fun x hx => hok x (by simp [hx])) h2

/-- On a fully well-formed log, `verify_chain` collects no errors. -/
theorem chainErrs_nil (l : List EvidenceObject)
    (hok : ∀ e ∈ l, e.verify = true)
    (hch : List.Chain' (fun a b => b.previous_hash = a.content_hash) l) :
    chainErrs l = [] := by
  cases l with
  | nil => rfl
  | cons e rest =>
    simp only [chainErrs, contentErrs, hok e (by simp), if_true, List.nil_append]
    exact chainErrsAux_nil e rest (fun x hx => hok x (by simp [hx])) hch

/-- A fresh vault satisfies the seal invariant. -/
theorem sealedInv_init (o k : String) : SealedInv (XVault.init o k) := by
  refine ⟨?_, ?_, Or.inl rfl⟩
  · intro e he
    simp [XVault.init] at he
  · simp [XVault.init]

/-- One `seal` call preserves the seal invariant. -/
theorem sealedInv_seal (v : XVault) (inp : SealInput) (h : SealedInv v) :
    SealedInv (v.seal inp).2 := by
  obtain ⟨hok, hch, hlast⟩ := h
  refine ⟨?_, ?_, ?_⟩
  · intro e he
    simp only [XVault.seal, List.mem_append, List.mem_singleton] at he
    rcases he with he | he
    · exact hok e he
    · subst he
      simp [EvidenceObject.verify]
  · simp only [XVault.seal]
    rw [List.chain'_append]
    refine ⟨hch, by simp, ?_⟩
    intro x hx y hy
    simp only [List.head?_cons, Option.mem_def, Option.some.injEq] at hy
    subst hy
    rcases hlast with hemp | ⟨e, hlastEq, hlh⟩
    · rw [hemp] at hx
      simp at hx
    · rw [hlastEq] at hx
      simp only [Option.mem_def, Option.some.injEq] at hx
      subst hx
      exact hlh
  · right
    simp only [XVault.seal]
    exact ⟨_, List.getLast?_concat _, rfl⟩

/-- Any run of `seal` calls preserves the seal invariant. -/
theorem sealedInv_sealMany (inputs : List SealInput) :
    ∀ v, SealedInv v → SealedInv (v.sealMany inputs) := by
  induction inputs with
  | nil =>
    intro v h
    simpa [XVault.sealMany] using h
  | cons i is ih =>
    intro v h
    have := ih (v.seal i).2 (sealedInv_seal v i h)
    simpa [XVault.sealMany] using this

/-- Under the seal invariant, `verify_chain` returns valid with no errors. -/
theorem verifyChain_of_inv (v : XVault) (h : SealedInv v) : v.verifyChain = (true, []) := by
  obtain ⟨hok, hch, _⟩ := h
  have hz : chainErrs v.evidence_chain = [] := chainErrs_nil _ hok hch
  simp [XVault.verifyChain, hz]

/-- Mutating record `i`'s content in a well-formed suffix makes the chain
walk report exactly that record's content-hash mismatch: its stored hash no
longer matches, while its unchanged stored hash keeps every link intact. -/
theorem chainErrsAux_set (c : String) :
    ∀ (l : List EvidenceObject) (p : EvidenceObject) (i : Nat) (e : EvidenceObject),
    (∀ x ∈ l, x.verify = true) →
    List.Chain' (fun a b => b.previous_hash = a.content_hash) (p :: l) →
    l.get? i = some e → c ≠ e.content →
    chainErrsAux p (l.set i { e with content := c }) =
      ["Evidence " ++ e.evidence_id ++ ": content hash mismatch"] := by
  intro l
  induction l with
  | nil =>
    intro p i e _ _ hget
    simp at hget
  | cons x xs ih =>
    intro p i e hok hch hget hc
    have hxv : x.verify = true := hok x (by simp)
    have hlink : x.previous_hash = p.content_hash := (List.chain'_cons.mp hch).1
    have hchx := (List.chain'_cons.mp hch).2
    cases i with
    | zero =>
      have hxe : x = e := by simpa using hget
      subst hxe
      have hhash : x.content_hash = Hash.sha256 x.content := by
        have := hxv
        simp only [EvidenceObject.verify, beq_iff_eq] at this
        exact this.symm
      have hver : ({ x with content := c } : EvidenceObject).verify = false := by
        simp only [EvidenceObject.verify, hhash, beq_eq_false_iff_ne, ne_eq,
          Hash.sha256.injEq]
        exact hc
      have hce : contentErrs { x with content := c } =
          ["Evidence " ++ x.evidence_id ++ ": content hash mismatch"] := by
        simp [contentErrs, hver]
      have hpe : prevErrs p { x with content := c } = [] := by
        simp [prevErrs, hlink]
      have haux : chainErrsAux { x with content := c } xs = [] := by
        rw [chainErrsAux_congr { x with content := c } x rfl]
        exact chainErrsAux_nil x xs (fun y hy => hok y (by simp [hy])) hchx
      simp [List.set, chainErrsAux, hce, hpe, haux]
    | succ i =>
      have hget' : xs.get? i = some e := by simpa using hget
      have hce : contentErrs x = [] := by simp [contentErrs, hxv]
      have hpe : prevErrs p x = [] := by simp [prevErrs, hlink]
      simp only [List.set, chainErrsAux, hce, hpe, List.nil_append]
      exact ih x i e (fun y hy => hok y (by simp [hy])) hchx hget' hc

/-- Top-level version of `chainErrsAux_set` for the whole log. -/
theorem chainErrs_set (c : String) (l : List EvidenceObject) (i : Nat) (e : EvidenceObject)
    (hok : ∀ x ∈ l, x.verify = true)
    (hch : List.Chain' (fun a b => b.previous_hash = a.content_hash) l)
    (hget : l.get? i = some e) (hc : c ≠ e.content) :
    chainErrs (l.set i { e with content := c }) =
      ["Evidence " ++ e.evidence_id ++ ": content hash mismatch"] := by
  cases l with
  | nil => simp at hget
  | cons x xs =>
    have hxv : x.verify = true := hok x (by simp)
    cases i with
    | zero =>
      have hxe : x = e := by simpa using hget
      subst hxe
      have hhash : x.content_hash = Hash.sha256 x.content := by
        have := hxv
        simp only [EvidenceObject.verify, beq_iff_eq] at this
        exact this.symm
      have hver : ({ x with content := c } : EvidenceObject).verify = false := by
        simp only [EvidenceObject.verify, hhash, beq_eq_false_iff_ne, ne_eq,
          Hash.sha256.injEq]
        exact hc
      have hce : contentErrs { x with content := c } =
          ["Evidence " ++ x.evidence_id ++ ": content hash mismatch"] := by
        simp [contentErrs, hver]
      have haux : chainErrsAux { x with content := c } xs = [] := by
        rw [chainErrsAux_congr { x with content := c } x rfl]
        exact chainErrsAux_nil x xs (fun y hy => hok y (by simp [hy])) hch
      simp [List.set, chainErrs, hce, haux]
    | succ i =>
      have hget' : xs.get? i = some e := by simpa using hget
      have hce : contentErrs x = [] := by simp [contentErrs, hxv]
      simp only [List.set, chainErrs, hce, List.nil_append]
      exact chainErrsAux_set c xs x i e (fun y hy => hok y (by simp [hy])) hch hget' hc

/-- C2.  Chain integrity: a ledger built solely by `seal` calls passes
`verify_chain` with no errors; mutating the stored content of any one
sealed record makes `verify_evidence` on that record false and makes
`verify_chain` report exactly that record's content-hash mismatch (the walk
still covers the whole log — every other check stays clean because the
stored hashes, which the links compare, are untouched). -/
theorem chain_integrity (o k : String) (inputs : List SealInput) :
    (XVault.sealMany (XVault.init o k) inputs).verifyChain = (true, []) ∧
    (∀ (i : Nat) (e : EvidenceObject) (c : String),
      (XVault.sealMany (XVault.init o k) inputs).evidence_chain.get? i = some e →
      c ≠ e.content →
      (∀ e2,
        ((XVault.sealMany (XVault.init o k) inputs).mutateContent i c).evidence_chain.get? i =
          some e2 →
        ((XVault.sealMany (XVault.init o k) inputs).mutateContent i c).verifyEvidence e2 = false) ∧
      ((XVault.sealMany (XVault.init o k) inputs).mutateContent i c).verifyChain =
        (false, ["Evidence " ++ e.evidence_id ++ ": content hash mismatch"])) := by
  obtain ⟨hok, hch, hlast⟩ := sealedInv_sealMany inputs _ (sealedInv_init o k)
  refine ⟨verifyChain_of_inv _ ⟨hok, hch, hlast⟩, ?_⟩
  intro i e c hget hc
  have hmem : e ∈ (XVault.sealMany (XVault.init o k) inputs).evidence_chain :=
    List.mem_iff_get?.mpr ⟨i, hget⟩
  obtain ⟨hlt, -⟩ := List.get?_eq_some.mp hget
  have hgetElem : ((XVault.sealMany (XVault.init o k) inputs).evidence_chain)[i]? = some e := by
    rw [← List.get?_eq_getElem?]
    exact hget
  have hchain : ((XVault.sealMany (XVault.init o k) inputs).mutateContent i c).evidence_chain =
      (XVault.sealMany (XVault.init o k) inputs).evidence_chain.set i { e with content := c } := by
    simp [XVault.mutateContent, hgetElem]
  have hhash : e.content_hash = Hash.sha256 e.content := by
    have hev := hok e hmem
    simp only [EvidenceObject.verify, beq_iff_eq] at hev
    exact hev.symm
  have hver : ({ e with content := c } : EvidenceObject).verify = false := by
    simp only [EvidenceObject.verify, hhash, beq_eq_false_iff_ne, ne_eq, Hash.sha256.injEq]
    exact hc
  constructor
  · intro e2 hget2
    rw [hchain, List.get?_set_eq_of_lt _ hlt] at hget2
    have he2 : e2 = { e with content := c } := by
      injection hget2 with h
      exact h.symm
    subst he2
    simp [XVault.verifyEvidence, hver]
  · have herr := chainErrs_set c _ i e hok hch hget hc
    simp [XVault.verifyChain, hchain, herr]

/-- C2 witness: on the two-record sample ledger, the untouched chain
verifies clean and mutating record 0's content produces exactly its
content-hash mismatch. -/
theorem chain_integrity_witness :
    sealedPairVault.verifyChain = (true, []) ∧
    (∀ e2, (sealedPairVault.mutateContent 0 "tampered").evidence_chain.get? 0 = some e2 →
      (sealedPairVault.mutateContent 0 "tampered").verifyEvidence e2 = false) ∧
    (sealedPairVault.mutateContent 0 "tampered").verifyChain =
      (false, ["Evidence id1: content hash mismatch"]) := by
  have h := chain_integrity "org" "key" [sealInpA, sealInpB]
  have hget : sealedPairVault.evidence_chain.get? 0 = some sealedRecA := by decide
  have hc : "tampered" ≠ sealedRecA.content := by decide
  have h2 := h.2 0 sealedRecA "tampered" hget hc
  exact ⟨h.1, h2.1, h2.2⟩

/-- On a parse success carrying a decision command that validates cleanly,
`execute` falls through to `_execute_decision` with the validation
warnings. -/
theorem execute_decision_unfold (db : Db) (cmd : Command) (y : Nat) (ts : String)
    (vr : VResult) (hd : cmd.type = CmdType.decision)
    (hv : ECLValidator.validate cmd = .ok vr) (hvalid : vr.valid = true) :
    DecisionEngine.execute db (mkParse cmd) none y ts =
      executeDecision db cmd vr.warnings y ts := by
  simp [DecisionEngine.execute, mkParse, hd, hv, hvalid]

/-- On a decision command that fails rule validation, `execute` rejects with
the collected errors and leaves the database untouched. -/
theorem execute_invalid_unfold (db : Db) (cmd : Command) (y : Nat) (ts : String)
    (vr : VResult) (hd : cmd.type = CmdType.decision)
    (hv : ECLValidator.validate cmd = .ok vr) (hvalid : vr.valid = false) :
    DecisionEngine.execute db (mkParse cmd) none y ts =
      (.ok ⟨false, none, none, none, vr.errors, some vr.warnings⟩, db) := by
  simp [DecisionEngine.execute, mkParse, hd, hv, hvalid]

/-- A successful `seal_to_vault` only appends the produced entry to the
vault list. -/
theorem sealToVault_ok_state (db : Db) (eid et : String) (p : Decision) (ts : String)
    (pr : VaultEntry × Db) (h : Db.sealToVault db eid et p ts = .ok pr) :
    pr.2 = { db with vault := db.vault ++ [pr.1] } := by
  unfold Db.sealToVault at h
  split at h
  · cases h
  · injection h with h2
    subst h2
    rfl

/-- Linking artifacts to a decision never touches the sequence counters,
the decision list or the vault. -/
theorem linkAll_state : ∀ (arts : List String) (db : Db) (eid : String),
    (db.linkAll arts eid).edi_sequence = db.edi_sequence ∧
    (db.linkAll arts eid).decisions = db.decisions ∧
    (db.linkAll arts eid).vault = db.vault := by
  intro arts
  induction arts with
  | nil => intro db eid; exact ⟨rfl, rfl, rfl⟩
  | cons a as ih =>
    intro db eid
    simp only [Db.linkAll, List.foldl_cons]
    have := ih (db.linkArtifact a eid) eid
    simp only [Db.linkAll] at this
    simpa [Db.linkArtifact] using this

/-- A decision object built by `_create_decision_object` carries the
allocated id, status EXECUTED and the instruction's supersede pointer. -/
theorem createDecisionObject_fields (eid : String) (cmd : Command) (ts : String)
    (dec : Decision) (h : createDecisionObject eid cmd ts = .ok dec) :
    dec.eve_decision_id = eid ∧ dec.status = "EXECUTED" ∧
    dec.supersedes = cmd.params.supersedes.get ∧ dec.superseded_by = none := by
  unfold createDecisionObject at h
  rcases hn : normalizeProjectId cmd.params.project_id.get with e | pv
  · simp only [hn] at h
    exact Except.noConfusion h
  · simp only [hn] at h
    rcases ho : ECLDecisionCommand.ofString cmd.verb with _ | ce
    · simp only [ho] at h
      exact Except.noConfusion h
    · simp only [ho] at h
      rcases hs : cmd.params.signoff.getD [] with _ | sgs
      · simp only [hs] at h
        exact Except.noConfusion h
      · simp only [hs] at h
        injection h with h2
        subst h2
        exact ⟨rfl, rfl, rfl, rfl⟩

/-- The empty string never matches the decision-id pattern. -/
theorem ediMatch_empty : ediMatch "" = false := by decide

/-- When the first decision list already contains the supersede target, the
status flip stops there and any appended suffix is untouched. -/
theorem supersedeUpd_append (t nid : String) : ∀ (l1 l2 : List Decision),
    (l1.find? (fun d => d.eve_decision_id == t)).isSome →
    supersedeUpd t nid (l1 ++ l2) = supersedeUpd t nid l1 ++ l2 := by
  intro l1
  induction l1 with
  | nil =>
    intro l2 h
    simp [List.find?] at h
  | cons d rest ih =>
    intro l2 h
    by_cases hd : d.eve_decision_id = t
    · simp [supersedeUpd, hd]
    · rw [List.find?_cons_of_neg _ (by simp [hd])] at h
      simp only [List.cons_append, supersedeUpd, if_neg hd]
      exact congrArg (fun x => d :: x) (ih l2 h)

/-- `get_decision` after `Database.supersede` finds the same record, now
flipped to SUPERSEDED and pointing at its successor. -/
theorem find?_supersedeUpd (t nid : String) : ∀ (l : List Decision) (A : Decision),
    l.find? (fun d => d.eve_decision_id == t) = some A →
    (supersedeUpd t nid l).find? (fun d => d.eve_decision_id == t) =
      some { A with status := "SUPERSEDED", superseded_by := some nid } := by
  intro l
  induction l with
  | nil => intro A h; simp [List.find?] at h
  | cons d rest ih =>
    intro A h
    by_cases hd : d.eve_decision_id = t
    · rw [List.find?_cons_of_pos _ (by simp [hd])] at h
      injection h with h2
      subst h2
      simp only [supersedeUpd, if_pos hd]
      rw [List.find?_cons_of_pos _ (by simp [hd])]
    · rw [List.find?_cons_of_neg _ (by simp [hd])] at h
      simp only [supersedeUpd, if_neg hd]
      rw [List.find?_cons_of_neg _ (by simp [hd])]
      exact ih A h

/-- C7 counterexample.  A parsed CLASSIFY instruction declaring a supersede
target whose target exists and is EXECUTED, but which fails the
decision-type's rule validation (no artifacts, no signoff), is rejected by
`execute` with `success = false` and the ledger untouched — the supersede is
not performed, so supersede does not bypass rule validation. -/
theorem supersede_blocked_by_validation :
    Db.getDecision dbWithExecuted "EVE-2024-000007" = some executedSample ∧
    executedSample.status = "EXECUTED" ∧
    truthyS supersedeNoArtifactsCmd.params.supersedes.get = true ∧
    ((DecisionEngine.execute dbWithExecuted (mkParse supersedeNoArtifactsCmd) none 2025 "ts").1.map
      ExecResult.success) = Except.ok false ∧
    (DecisionEngine.execute dbWithExecuted (mkParse supersedeNoArtifactsCmd) none 2025 "ts").2 =
      dbWithExecuted := by
  refine ⟨by decide, by decide, by decide, by decide, by decide⟩

/-- C7 (amended).  `execute` rule-validates every decision instruction
before routing: only an instruction that passes validation and declares a
truthy supersede target reaches the supersede path; an instruction that
fails validation is rejected with the collected errors and no ledger
mutation, whether or not it declares a supersede target. -/
theorem supersede_routed_after_validation :
    (∀ (db : Db) (cmd : Command) (y : Nat) (ts : String) (vr : VResult),
      cmd.type = CmdType.decision → ECLValidator.validate cmd = .ok vr → vr.valid = true →
      truthyS cmd.params.supersedes.get = true →
      DecisionEngine.execute db (mkParse cmd) none y ts =
        executeSupersede db cmd vr.warnings y ts) ∧
    (∀ (db : Db) (cmd : Command) (y : Nat) (ts : String) (vr : VResult),
      cmd.type = CmdType.decision → ECLValidator.validate cmd = .ok vr → vr.valid = false →
      DecisionEngine.execute db (mkParse cmd) none y ts =
        (.ok ⟨false, none, none, none, vr.errors, some vr.warnings⟩, db)) := by
  constructor
  · intro db cmd y ts vr hd hv hvalid hsup
    rw [execute_decision_unfold db cmd y ts vr hd hv hvalid]
    simp [executeDecision, hsup]
  · intro db cmd y ts vr hd hv hvalid
    exact execute_invalid_unfold db cmd y ts vr hd hv hvalid

/-- C7 witness: the valid supersede command routes to the supersede path;
the invalid one from the counterexample is rejected in place. -/
theorem supersede_routed_after_validation_witness :
    DecisionEngine.execute dbWithExecuted (mkParse supersedeValidCmd) none 2025 "ts" =
      executeSupersede dbWithExecuted supersedeValidCmd
        ["CLASSIFY should include use_case for traceability"] 2025 "ts" ∧
    DecisionEngine.execute dbWithExecuted (mkParse supersedeNoArtifactsCmd) none 2025 "ts" =
      (.ok ⟨false, none, none, none,
        ["CLASSIFY requires 1 artifact(s) with prefix \x27CDOC-SCOPE\x27. Found: 0",
         "CLASSIFY requires 1 artifact(s) with prefix \x27CDOC-CLASS\x27. Found: 0",
         "CLASSIFY requires signoff from: \x27Compliance Owner\x27"],
        some ["CLASSIFY should include use_case for traceability"]⟩, dbWithExecuted) := by
  constructor
  · exact supersede_routed_after_validation.1 dbWithExecuted supersedeValidCmd 2025 "ts"
      ⟨true, [], ["CLASSIFY should include use_case for traceability"]⟩
      (by decide) (by decide) (by decide) (by decide)
  · exact supersede_routed_after_validation.2 dbWithExecuted supersedeNoArtifactsCmd 2025 "ts"
      ⟨false,
        ["CLASSIFY requires 1 artifact(s) with prefix \x27CDOC-SCOPE\x27. Found: 0",
         "CLASSIFY requires 1 artifact(s) with prefix \x27CDOC-CLASS\x27. Found: 0",
         "CLASSIFY requires signoff from: \x27Compliance Owner\x27"],
        ["CLASSIFY should include use_case for traceability"]⟩
      (by decide) (by decide) (by decide)

/-- C4 counterexample.  A CLASSIFY instruction that passes rule validation
but carries the invalid partition id "BAD" fails inside
`_create_decision_object` with the normalization `ValueError`; no decision
record and no vault entry are added, but the year-2025 sequence counter has
already been advanced from 0 to 1 by `generate_next_edi`, which runs (and
saves) before normalization — contradicting the claim that a
normalization failure leaves the counter unadvanced. -/
theorem counter_advances_on_invalid_partition :
    (ECLValidator.validate invalidPartitionCmd).map VResult.valid = Except.ok true ∧
    (DecisionEngine.execute Db.empty (mkParse invalidPartitionCmd) none 2025 "ts").1 =
      .error "Invalid project_id BAD. Must match: ^[a-z0-9][a-z0-9-]\x7b0,62\x7d[a-z0-9]$" ∧
    (DecisionEngine.execute Db.empty (mkParse invalidPartitionCmd) none 2025 "ts").2.decisions = [] ∧
    (DecisionEngine.execute Db.empty (mkParse invalidPartitionCmd) none 2025 "ts").2.vault = [] ∧
    seqLookup Db.empty.edi_sequence 2025 = 0 ∧
    seqLookup
      (DecisionEngine.execute Db.empty (mkParse invalidPartitionCmd) none 2025 "ts").2.edi_sequence
      2025 = 1 := by
  refine ⟨by decide, by decide, by decide, by decide, by decide, by decide⟩

/-- Once the decision object is created, every later branch of
`_execute_decision`'s non-supersede path (seal failure, artifact-link
failure, success) leaves the decision list grown by exactly that record and
the counter advanced by exactly one. -/
theorem executeDecision_branch_state (db : Db) (cmd : Command) (w : List String) (y : Nat)
    (ts : String) (dec : Decision)
    (hsup : truthyS cmd.params.supersedes.get = false)
    (hcd : createDecisionObject (db.generateNextEdi y).1 cmd ts = .ok dec) :
    (executeDecision db cmd w y ts).2.decisions = db.decisions ++ [dec] ∧
    (executeDecision db cmd w y ts).2.edi_sequence =
      seqSet db.edi_sequence y (seqLookup db.edi_sequence y + 1) := by
  unfold executeDecision
  simp only [hsup, Bool.false_eq_true, if_false, hcd]
  rcases hsl : Db.sealToVault ((db.generateNextEdi y).2.insertDecision dec)
      (db.generateNextEdi y).1 "DECISION" dec ts with e | entryDb
  · simp only [hsl]
    constructor <;> simp [Db.insertDecision, Db.generateNextEdi, genNextSeq]
  · simp only [hsl]
    have h4 := sealToVault_ok_state _ _ _ _ _ _ hsl
    rcases hart : cmd.params.artifacts.getD [] with _ | arts
    · simp only [hart, h4]
      constructor <;> simp [Db.insertDecision, Db.generateNextEdi, genNextSeq]
    · simp only [hart]
      obtain ⟨l1, l2, l3⟩ := linkAll_state arts entryDb.2 (db.generateNextEdi y).1
      constructor
      · rw [l2, h4]
        simp [Db.insertDecision, Db.generateNextEdi, genNextSeq]
      · rw [l1, h4]
        simp [Db.insertDecision, Db.generateNextEdi, genNextSeq]

/-- A successful run of the supersede path advances the year's counter by
exactly one. -/
theorem executeSupersede_success_edi (db : Db) (cmd : Command) (w : List String) (y : Nat)
    (ts : String) (r : ExecResult)
    (h1 : (executeSupersede db cmd w y ts).1 = .ok r) (hs : r.success = true) :
    (executeSupersede db cmd w y ts).2.edi_sequence =
      seqSet db.edi_sequence y (seqLookup db.edi_sequence y + 1) := by
  unfold executeSupersede at h1 ⊢
  rcases hsg : cmd.params.supersedes.get with _ | t <;> simp only [hsg] at h1 ⊢
  · simp at h1
  · rcases hgd : db.getDecision t with _ | orig <;> simp only [hgd] at h1 ⊢
    · simp only [Except.ok.injEq] at h1
      rw [← h1] at hs
      simp [ExecResult.fail] at hs
    · by_cases hst : orig.status ≠ "EXECUTED"
      · simp only [if_pos hst] at h1 ⊢
        simp only [Except.ok.injEq] at h1
        rw [← h1] at hs
        simp [ExecResult.fail] at hs
      · simp only [if_neg hst] at h1 ⊢
        rcases hcd : createDecisionObject (db.generateNextEdi y).1 cmd ts with e | dec <;>
          simp only [hcd] at h1 ⊢
        · simp at h1
        · rcases hsl : Db.sealToVault
              (((db.generateNextEdi y).2.insertDecision dec).supersede t (db.generateNextEdi y).1)
              (db.generateNextEdi y).1 "DECISION" dec ts with e | entryDb <;>
            simp only [hsl] at h1 ⊢
          · simp at h1
          · have h4 := sealToVault_ok_state _ _ _ _ _ _ hsl
            rw [h4]
            simp [Db.supersede, Db.insertDecision, Db.generateNextEdi, genNextSeq]

/-- A successful run of `_execute_decision` (either path) advances the
year's counter by exactly one. -/
theorem executeDecision_success_edi (db : Db) (cmd : Command) (w : List String) (y : Nat)
    (ts : String) (r : ExecResult)
    (h1 : (executeDecision db cmd w y ts).1 = .ok r) (hs : r.success = true) :
    (executeDecision db cmd w y ts).2.edi_sequence =
      seqSet db.edi_sequence y (seqLookup db.edi_sequence y + 1) := by
  by_cases hsup : truthyS cmd.params.supersedes.get = true
  · have hrw : executeDecision db cmd w y ts = executeSupersede db cmd w y ts := by
      unfold executeDecision
      simp [hsup]
    rw [hrw] at h1 ⊢
    exact executeSupersede_success_edi db cmd w y ts r h1 hs
  · have hsup' : truthyS cmd.params.supersedes.get = false := by
      simpa using hsup
    rcases hcd : createDecisionObject (db.generateNextEdi y).1 cmd ts with e | dec
    · exfalso
      unfold executeDecision at h1
      simp [hsup', hcd] at h1
    · exact (executeDecision_branch_state db cmd w y ts dec hsup' hcd).2

/-- C4 (amended).  Atomicity of failed writes: a parse failure, a
rule-validation failure, or a supersede target that is missing or not
EXECUTED is rejected with the database — counter included — fully
unchanged.  A partition-id normalization failure adds no decision record
and no vault entry, but the per-year sequence counter has already been
advanced (and saved) by one, because `generate_next_edi` runs before
`_create_decision_object`.  Every successful write decision advances the
counter exactly once. -/
theorem failed_write_atomicity_amended :
    (∀ (db : Db) (pr : ParseResult) (api : Option String) (y : Nat) (ts : String),
      pr.success = false →
      DecisionEngine.execute db pr api y ts = (.ok (ExecResult.fail pr.errors), db)) ∧
    (∀ (db : Db) (cmd : Command) (y : Nat) (ts : String) (vr : VResult),
      cmd.type = CmdType.decision → ECLValidator.validate cmd = .ok vr → vr.valid = false →
      DecisionEngine.execute db (mkParse cmd) none y ts =
        (.ok ⟨false, none, none, none, vr.errors, some vr.warnings⟩, db)) ∧
    (∀ (db : Db) (cmd : Command) (y : Nat) (ts : String) (vr : VResult) (t : String),
      cmd.type = CmdType.decision → ECLValidator.validate cmd = .ok vr → vr.valid = true →
      cmd.params.supersedes.get = some t → truthyS cmd.params.supersedes.get = true →
      db.getDecision t = none →
      DecisionEngine.execute db (mkParse cmd) none y ts =
        (.ok (ExecResult.fail ["Decision not found: " ++ t]), db)) ∧
    (∀ (db : Db) (cmd : Command) (y : Nat) (ts : String) (vr : VResult) (t : String)
      (orig : Decision),
      cmd.type = CmdType.decision → ECLValidator.validate cmd = .ok vr → vr.valid = true →
      cmd.params.supersedes.get = some t → truthyS cmd.params.supersedes.get = true →
      db.getDecision t = some orig → orig.status ≠ "EXECUTED" →
      DecisionEngine.execute db (mkParse cmd) none y ts =
        (.ok (ExecResult.fail ["Cannot supersede " ++ orig.status ++ " decision"]), db)) ∧
    (∀ (db : Db) (cmd : Command) (y : Nat) (ts : String) (vr : VResult) (em : String),
      cmd.type = CmdType.decision → ECLValidator.validate cmd = .ok vr → vr.valid = true →
      truthyS cmd.params.supersedes.get = false →
      normalizeProjectId cmd.params.project_id.get = .error em →
      DecisionEngine.execute db (mkParse cmd) none y ts =
        (.error em,
          { db with edi_sequence := seqSet db.edi_sequence y (seqLookup db.edi_sequence y + 1) })) ∧
    (∀ (db : Db) (cmd : Command) (y : Nat) (ts : String) (r : ExecResult),
      cmd.type = CmdType.decision →
      (DecisionEngine.execute db (mkParse cmd) none y ts).1 = .ok r → r.success = true →
      (DecisionEngine.execute db (mkParse cmd) none y ts).2.edi_sequence =
        seqSet db.edi_sequence y (seqLookup db.edi_sequence y + 1)) := by
  refine ⟨?_, ?_, ?_, ?_, ?_, ?_⟩
  · intro db pr api y ts h
    simp [DecisionEngine.execute, h]
  · intro db cmd y ts vr hd hv hvalid
    exact execute_invalid_unfold db cmd y ts vr hd hv hvalid
  · intro db cmd y ts vr t hd hv hvalid hsg hsup hgd
    rw [execute_decision_unfold db cmd y ts vr hd hv hvalid]
    unfold executeDecision executeSupersede
    have hsup2 : truthyS (some t) = true := by
      rw [← hsg]
      exact hsup
    simp [hsg, hsup2, hgd]
  · intro db cmd y ts vr t orig hd hv hvalid hsg hsup hgd hst
    rw [execute_decision_unfold db cmd y ts vr hd hv hvalid]
    unfold executeDecision executeSupersede
    have hsup2 : truthyS (some t) = true := by
      rw [← hsg]
      exact hsup
    simp [hsg, hsup2, hgd, hst]
  · intro db cmd y ts vr em hd hv hvalid hsup hnorm
    rw [execute_decision_unfold db cmd y ts vr hd hv hvalid]
    unfold executeDecision
    have hcd : createDecisionObject (db.generateNextEdi y).1 cmd ts = .error em := by
      unfold createDecisionObject
      simp [hnorm]
    rw [if_neg (by simp [hsup])]
    simp only [hcd]
    simp [Db.generateNextEdi, genNextSeq]
  · intro db cmd y ts r hd h1 hs
    rcases hval : ECLValidator.validate cmd with e | vr
    · exfalso
      simp [DecisionEngine.execute, mkParse, hd, hval] at h1
    · by_cases hvalid : vr.valid = true
      · rw [execute_decision_unfold db cmd y ts vr hd hval hvalid] at h1 ⊢
        exact executeDecision_success_edi db cmd vr.warnings y ts r h1 hs
      · exfalso
        have hvf : vr.valid = false := by simpa using hvalid
        rw [execute_invalid_unfold db cmd y ts vr hd hval hvf] at h1
        simp only [Except.ok.injEq] at h1
        rw [← h1] at hs
        simp at hs

/-- C4 witness: each branch of the amended atomicity statement exercised at
a concrete input — a parse failure, a validation failure, a missing
supersede target, a normalization failure (counter already advanced), and a
successful write advancing the counter exactly once. -/
theorem failed_write_atomicity_amended_witness :
    DecisionEngine.execute Db.empty ⟨false, none, ["Empty command"]⟩ none 2025 "ts" =
      (.ok (ExecResult.fail ["Empty command"]), Db.empty) ∧
    DecisionEngine.execute dbWithExecuted (mkParse supersedeNoArtifactsCmd) none 2025 "ts" =
      (.ok ⟨false, none, none, none,
        ["CLASSIFY requires 1 artifact(s) with prefix \x27CDOC-SCOPE\x27. Found: 0",
         "CLASSIFY requires 1 artifact(s) with prefix \x27CDOC-CLASS\x27. Found: 0",
         "CLASSIFY requires signoff from: \x27Compliance Owner\x27"],
        some ["CLASSIFY should include use_case for traceability"]⟩, dbWithExecuted) ∧
    DecisionEngine.execute Db.empty (mkParse supersedeValidCmd) none 2025 "ts" =
      (.ok (ExecResult.fail ["Decision not found: EVE-2024-000007"]), Db.empty) ∧
    DecisionEngine.execute Db.empty (mkParse invalidPartitionCmd) none 2025 "ts" =
      (.error "Invalid project_id BAD. Must match: ^[a-z0-9][a-z0-9-]\x7b0,62\x7d[a-z0-9]$",
        { Db.empty with edi_sequence := seqSet Db.empty.edi_sequence 2025 1 }) ∧
    (DecisionEngine.execute Db.empty (mkParse validClassifyCmd) none 2025 "ts").2.edi_sequence =
      seqSet Db.empty.edi_sequence 2025 1 := by
  obtain ⟨w1, w2, w3, w4, w5, w6⟩ := failed_write_atomicity_amended
  refine ⟨w1 Db.empty ⟨false, none, ["Empty command"]⟩ none 2025 "ts" rfl, ?_, ?_, ?_, ?_⟩
  · exact w2 dbWithExecuted supersedeNoArtifactsCmd 2025 "ts"
      ⟨false,
        ["CLASSIFY requires 1 artifact(s) with prefix \x27CDOC-SCOPE\x27. Found: 0",
         "CLASSIFY requires 1 artifact(s) with prefix \x27CDOC-CLASS\x27. Found: 0",
         "CLASSIFY requires signoff from: \x27Compliance Owner\x27"],
        ["CLASSIFY should include use_case for traceability"]⟩
      (by decide) (by decide) (by decide)
  · exact w3 Db.empty supersedeValidCmd 2025 "ts"
      ⟨true, [], ["CLASSIFY should include use_case for traceability"]⟩ "EVE-2024-000007"
      (by decide) (by decide) (by decide) (by decide) (by decide) (by decide)
  · exact w5 Db.empty invalidPartitionCmd 2025 "ts"
      ⟨true, [], ["CLASSIFY should include use_case for traceability"]⟩
      "Invalid project_id BAD. Must match: ^[a-z0-9][a-z0-9-]\x7b0,62\x7d[a-z0-9]$"
      (by decide) (by decide) (by decide) (by decide) (by decide)
  · exact w6 Db.empty validClassifyCmd 2025 "ts" validRunRes (by decide) (by decide) (by decide)

/-- A first match in the left part of an appended list is the first match of
the whole list. -/
theorem find?_append_of_some {α : Type} (p : α → Bool) :
    ∀ (l1 l2 : List α) (a : α), l1.find? p = some a → (l1 ++ l2).find? p = some a := by
  intro l1
  induction l1 with
  | nil => intro l2 a h; simp [List.find?] at h
  | cons x xs ih =>
    intro l2 a h
    by_cases hx : p x
    · rw [List.find?_cons_of_pos _ hx] at h
      rw [List.cons_append, List.find?_cons_of_pos _ hx]
      exact h
    · rw [List.find?_cons_of_neg _ hx] at h
      rw [List.cons_append, List.find?_cons_of_neg _ hx]
      exact ih l2 a h

/-- Full state change of a successful `_execute_supersede` run: the result
reports success with the fresh id, the decision list becomes the old list
plus the new record with the target flipped, and the vault gains exactly
the one seal entry. -/
theorem executeSupersede_success_spec (db : Db) (cmd : Command) (w : List String) (y : Nat)
    (ts : String) (t : String) (orig dec : Decision)
    (hsg : cmd.params.supersedes.get = some t)
    (hgd : db.getDecision t = some orig)
    (hst : orig.status = "EXECUTED")
    (hcd : createDecisionObject (db.generateNextEdi y).1 cmd ts = .ok dec)
    (hem : ediMatch (db.generateNextEdi y).1 = true) :
    executeSupersede db cmd w y ts =
      (.ok { success := true, eve_decision_id := some (db.generateNextEdi y).1,
             vault_proof := some (Hash.vaultProof dec.digest ts), sealed_at := some ts,
             errors := [], warnings := some (("Superseded: " ++ t) :: w) },
        ⟨seqSet db.edi_sequence y (seqLookup db.edi_sequence y + 1),
         supersedeUpd t (db.generateNextEdi y).1 (db.decisions ++ [dec]),
         db.vault ++ [⟨(db.generateNextEdi y).1, "DECISION", dec.digest, ts,
           Hash.vaultProof dec.digest ts⟩],
         db.artifacts⟩) := by
  have hne : ¬ ((db.generateNextEdi y).1 = "" ∨ ¬ ediMatch (db.generateNextEdi y).1 = true) := by
    rintro (h0 | h0)
    · rw [h0, ediMatch_empty] at hem
      cases hem
    · exact h0 hem
  have hstn : ¬ (orig.status ≠ "EXECUTED") := fun h => h hst
  unfold executeSupersede
  simp only [hsg, hgd, if_neg hstn, hcd]
  unfold Db.sealToVault
  rw [if_neg hne]
  simp [Db.generateNextEdi, genNextSeq, Db.insertDecision, Db.supersede, Decision.digest]

/-- C5.  Supersede state machine: a missing target or a target not in
status EXECUTED is rejected with the database unchanged; on success a new
decision B is appended (status EXECUTED, `supersedes` pointing at the
target), the target A flips to SUPERSEDED with `superseded_by` set to B's
id, and a second supersede aimed at A now fails with the state-transition
error, again leaving the database unchanged. -/
theorem supersede_state_machine :
    (∀ (db : Db) (cmd : Command) (w : List String) (y : Nat) (ts : String) (t : String),
      cmd.params.supersedes.get = some t → db.getDecision t = none →
      executeSupersede db cmd w y ts =
        (.ok (ExecResult.fail ["Decision not found: " ++ t]), db)) ∧
    (∀ (db : Db) (cmd : Command) (w : List String) (y : Nat) (ts : String) (t : String)
      (orig : Decision),
      cmd.params.supersedes.get = some t → db.getDecision t = some orig →
      orig.status ≠ "EXECUTED" →
      executeSupersede db cmd w y ts =
        (.ok (ExecResult.fail ["Cannot supersede " ++ orig.status ++ " decision"]), db)) ∧
    (∀ (db : Db) (cmd : Command) (w : List String) (y : Nat) (ts : String) (t : String)
      (orig dec : Decision),
      cmd.params.supersedes.get = some t → db.getDecision t = some orig →
      orig.status = "EXECUTED" →
      createDecisionObject (db.generateNextEdi y).1 cmd ts = .ok dec →
      ediMatch (db.generateNextEdi y).1 = true →
      (∃ res : ExecResult,
        (executeSupersede db cmd w y ts).1 = .ok res ∧ res.success = true ∧
        res.eve_decision_id = some (db.generateNextEdi y).1) ∧
      ((executeSupersede db cmd w y ts).2.getDecision t =
        some { orig with status := "SUPERSEDED",
                         superseded_by := some (db.generateNextEdi y).1 }) ∧
      ((executeSupersede db cmd w y ts).2.decisions.getLast? = some dec ∧
        dec.eve_decision_id = (db.generateNextEdi y).1 ∧ dec.status = "EXECUTED" ∧
        dec.supersedes = some t ∧ dec.superseded_by = none) ∧
      (∀ (cmd2 : Command) (w2 : List String) (y2 : Nat) (ts2 : String),
        cmd2.params.supersedes.get = some t →
        executeSupersede (executeSupersede db cmd w y ts).2 cmd2 w2 y2 ts2 =
          (.ok (ExecResult.fail ["Cannot supersede SUPERSEDED decision"]),
            (executeSupersede db cmd w y ts).2))) := by
  refine ⟨?_, ?_, ?_⟩
  · intro db cmd w y ts t hsg hgd
    unfold executeSupersede
    simp [hsg, hgd, ExecResult.fail]
  · intro db cmd w y ts t orig hsg hgd hst
    unfold executeSupersede
    simp [hsg, hgd, hst, ExecResult.fail]
  · intro db cmd w y ts t orig dec hsg hgd hst hcd hem
    have hspec := executeSupersede_success_spec db cmd w y ts t orig dec hsg hgd hst hcd hem
    have hfind : db.decisions.find? (fun d => d.eve_decision_id == t) = some orig := hgd
    have hfupd := find?_supersedeUpd t (db.generateNextEdi y).1 db.decisions orig hfind
    have hfull : (supersedeUpd t (db.generateNextEdi y).1 (db.decisions ++ [dec])).find?
        (fun d => d.eve_decision_id == t) =
        some { orig with status := "SUPERSEDED",
                         superseded_by := some (db.generateNextEdi y).1 } := by
      rw [supersedeUpd_append t (db.generateNextEdi y).1 db.decisions [dec]
        (by rw [hfind]; rfl)]
      exact find?_append_of_some _ _ [dec] _ hfupd
    obtain ⟨hid, hstd, hsupd, hsbd⟩ := createDecisionObject_fields _ cmd ts dec hcd
    refine ⟨?_, ?_, ?_, ?_⟩
    · rw [hspec]
      exact ⟨_, rfl, rfl, rfl⟩
    · rw [hspec]
      exact hfull
    · refine ⟨?_, hid, hstd, ?_, hsbd⟩
      · rw [hspec]
        simp only
        rw [supersedeUpd_append t (db.generateNextEdi y).1 db.decisions [dec]
          (by rw [hfind]; rfl)]
        exact List.getLast?_concat _
      · rw [hsupd, hsg]
    · intro cmd2 w2 y2 ts2 hsg2
      have hgd2 : ((executeSupersede db cmd w y ts).2).getDecision t =
          some { orig with status := "SUPERSEDED",
                           superseded_by := some (db.generateNextEdi y).1 } := by
        rw [hspec]
        exact hfull
      have hmsg : "Cannot supersede " ++ "SUPERSEDED" ++ " decision" =
          "Cannot supersede SUPERSEDED decision" := rfl
      set db2 := (executeSupersede db cmd w y ts).2 with hdb2
      unfold executeSupersede
      simp [hsg2, hgd2, ExecResult.fail, hmsg]

/-- C5 witness: superseding the sample executed decision succeeds with the
fresh id, flips the target, and a second supersede of the same target fails
with the state-transition error, leaving the ledger unchanged. -/
theorem supersede_state_machine_witness :
    (∃ res : ExecResult,
      (executeSupersede dbWithExecuted supersedeValidCmd [] 2025 "ts").1 = .ok res ∧
      res.success = true ∧ res.eve_decision_id = some "EVE-2025-000001") ∧
    ((executeSupersede dbWithExecuted supersedeValidCmd [] 2025 "ts").2.getDecision
      "EVE-2024-000007" =
      some { executedSample with status := "SUPERSEDED",
                                 superseded_by := some "EVE-2025-000001" }) ∧
    executeSupersede (executeSupersede dbWithExecuted supersedeValidCmd [] 2025 "ts").2
        supersedeValidCmd [] 2025 "ts2" =
      (.ok (ExecResult.fail ["Cannot supersede SUPERSEDED decision"]),
        (executeSupersede dbWithExecuted supersedeValidCmd [] 2025 "ts").2) := by
  have hid : (dbWithExecuted.generateNextEdi 2025).1 = "EVE-2025-000001" := by decide
  have h := supersede_state_machine.2.2 dbWithExecuted supersedeValidCmd [] 2025 "ts"
    "EVE-2024-000007" executedSample supersededNewDecision
    (by decide) (by decide) (by decide) (by decide) (by decide)
  obtain ⟨⟨res, hr1, hr2, hr3⟩, hA, _, hC⟩ := h
  rw [hid] at hr3 hA
  exact ⟨⟨res, hr1, hr2, hr3⟩, hA, hC supersedeValidCmd [] 2025 "ts2" (by decide)⟩

/-- Characters of the partition-id alphabet are left unescaped by the JSON
encoder. -/
theorem escChar_alnumDash (c : Char) (h : alnumDash c = true) : escChar c = [c] := by
  have hn : (97 ≤ c.toNat ∧ c.toNat ≤ 122) ∨ (48 ≤ c.toNat ∧ c.toNat ≤ 57) ∨ c.toNat = 45 := by
    have hq : (97 ≤ c.toNat ∧ c.toNat ≤ 122 ∨ 48 ≤ c.toNat ∧ c.toNat ≤ 57) ∨ c.toNat = 45 := by
      simpa [alnumDash, alnumLower, Bool.or_eq_true, Bool.and_eq_true,
        decide_eq_true_eq] using h
    tauto
  have h1 : c ≠ '"' := fun he => absurd (he ▸ hn) (by decide)
  have h2 : c ≠ '\\' := fun he => absurd (he ▸ hn) (by decide)
  have h3 : c ≠ '\n' := fun he => absurd (he ▸ hn) (by decide)
  have h4 : c ≠ '\r' := fun he => absurd (he ▸ hn) (by decide)
  have h5 : c ≠ '\t' := fun he => absurd (he ▸ hn) (by decide)
  have h6 : ¬ (c.toNat = 8) := by omega
  have h7 : ¬ (c.toNat = 12) := by omega
  have h8 : ¬ (c.toNat < 32 ∨ 127 ≤ c.toNat) := by omega
  unfold escChar
  rw [if_neg h1, if_neg h2, if_neg h3, if_neg h4, if_neg h5, if_neg h6, if_neg h7, if_neg h8]

/-- A list of partition-alphabet characters passes unchanged through the
JSON escaper. -/
theorem flatMap_escChar_id (l : List Char) (h : ∀ c ∈ l, alnumDash c = true) :
    l.flatMap escChar = l := by
  induction l with
  | nil => rfl
  | cons c cs ih =>
    rw [List.flatMap_cons, escChar_alnumDash c (h c (by simp)),
      ih (fun x hx => h x (by simp [hx]))]
    rfl

/-- Every character of a string matching the strict partition grammar is in
the partition alphabet. -/
theorem strictProj_alnumDash (l : List Char) (h : strictProj l = true) :
    ∀ c ∈ l, alnumDash c = true := by
  cases l with
  | nil => simp [strictProj] at h
  | cons c rest =>
    cases rest with
    | nil => simp [strictProj] at h
    | cons d rest2 =>
      simp only [strictProj, Bool.and_eq_true] at h
      obtain ⟨⟨⟨hc, hlast⟩, hmid⟩, _⟩ := h
      intro x hx
      rcases List.mem_cons.mp hx with hx0 | hx1
      · subst hx0
        simp [alnumDash, hc]
      · have hture : (d :: rest2) = (d :: rest2).dropLast ++ [(d :: rest2).getLast (by simp)] :=
          (List.dropLast_append_getLast (by simp)).symm
        rw [hture] at hx1
        rcases List.mem_append.mp hx1 with hm | hm
        · exact List.all_eq_true.mp hmid x hm
        · have hxl : x = (d :: rest2).getLast (by simp) := by simpa using hm
          rw [List.getLast?_eq_getLast (d :: rest2) (by simp)] at hlast
          rw [hxl]
          simp only [alnumDash, Bool.or_eq_true]
          exact Or.inl hlast

/-- The characters of the quote string literal. -/
theorem quote_data : ("\"" : String).data = ['"'] := rfl

/-- The `context_data` JSON determines the normalized partition id: two
strict-grammar partition ids serializing to the same context string are
equal (the id sits between the only unescaped quotes of its segment and
contains none itself). -/
theorem contextData_inj (params : Params) (p1 p2 : String)
    (h1 : strictProj p1.data = true) (h2 : strictProj p2.data = true)
    (he : contextData p1 params = contextData p2 params) : p1 = p2 := by
  have hf1 : p1.data.flatMap escChar = p1.data :=
    flatMap_escChar_id p1.data (strictProj_alnumDash p1.data h1)
  have hf2 : p2.data.flatMap escChar = p2.data :=
    flatMap_escChar_id p2.data (strictProj_alnumDash p2.data h2)
  have hd := congrArg String.data he
  simp only [contextData, jsonStr, String.data_append, hf1, hf2, quote_data,
    List.append_assoc, List.singleton_append, List.cons_append, List.nil_append,
    List.cons.injEq, true_and, List.append_right_inj, List.append_left_inj] at hd
  exact congrArg String.mk hd

/-- Explicit result of a successful `_create_decision_object` run. -/
theorem createDecisionObject_ok (eid : String) (cmd : Command) (ts : String)
    (pv : String × String) (ce : ECLDecisionCommand) (sgs : List Signoff)
    (hn : normalizeProjectId cmd.params.project_id.get = .ok pv)
    (ho : ECLDecisionCommand.ofString cmd.verb = some ce)
    (hs : cmd.params.signoff.getD [] = some sgs) :
    createDecisionObject eid cmd ts = .ok
      { eve_decision_id := eid
        project_id := pv.1
        hash_version := pv.2
        decision_type := commandToDecisionType ce
        status := "EXECUTED"
        created_at := ts
        executed_by := sgs.map fun s => ⟨s.role, s.actor_id, "explicit_signoff"⟩
        scope_system_id := cmd.params.system_id.getD ""
        scope_use_case := cmd.params.use_case.getD ""
        source_artifacts := cmd.params.artifacts.getD []
        risk_links := cmd.params.risk_links.get
        rule_set_version := Hash.rulesetVersion
        context_hash := Hash.sha256 (contextData pv.1 cmd.params)
        supersedes := cmd.params.supersedes.get
        superseded_by := none } := by
  unfold createDecisionObject
  simp only [hn, ho, hs]

/-- The context serialization reads every instruction field except the raw
`project_id` entry, which the normalized id replaces. -/
theorem contextData_update (pid q : String) (p : Params) :
    contextData pid { p with project_id := .val q } = contextData pid p := rfl

/-- C1.  Partition isolation: executing two decision instructions that are
identical except for their (grammar-valid) partition ids appends two
decision records whose content hashes differ — the normalized partition id
is baked into the hashed context — and whose decision ids differ — the
second allocation takes the next sequence number; both records carry their
own partition id and the current hash scheme. -/
theorem partition_isolation (db : Db) (year : Nat) (ts1 ts2 : String) (v : String)
    (p : Params) (p1 p2 : String) (ce : ECLDecisionCommand)
    (hverb : ECLDecisionCommand.ofString v = some ce)
    (h1 : strictProj p1.data = true) (h2 : strictProj p2.data = true) (hne : p1 ≠ p2)
    (hsup : truthyS p.supersedes.get = false)
    (hsig : p.signoff ≠ PField.null) :
    ∃ d1 d2 : Decision,
      (executeDecision
          (executeDecision db ⟨CmdType.decision, v, { p with project_id := .val p1 }⟩ [] year ts1).2
          ⟨CmdType.decision, v, { p with project_id := .val p2 }⟩ [] year ts2).2.decisions =
        db.decisions ++ [d1, d2] ∧
      d1.context_hash ≠ d2.context_hash ∧
      d1.eve_decision_id ≠ d2.eve_decision_id ∧
      d1.project_id = p1 ∧ d2.project_id = p2 ∧
      d1.hash_version = "v2" ∧ d2.hash_version = "v2" := by
  obtain ⟨sgs, hsgs⟩ : ∃ sgs, p.signoff.getD [] = some sgs := by
    cases hval : p.signoff with
    | absent => exact ⟨[], rfl⟩
    | null => exact absurd hval hsig
    | val l => exact ⟨l, rfl⟩
  have hp1ne : p1 ≠ "" := fun h0 => by
    rw [h0] at h1
    exact absurd h1 (by decide)
  have hp2ne : p2 ≠ "" := fun h0 => by
    rw [h0] at h2
    exact absurd h2 (by decide)
  have hm1 : projectIdMatch p1 = true := by simp [projectIdMatch, h1]
  have hm2 : projectIdMatch p2 = true := by simp [projectIdMatch, h2]
  have hn1 : normalizeProjectId (some p1) = .ok (p1, "v2") := by
    simp [normalizeProjectId, hp1ne, hm1]
  have hn2 : normalizeProjectId (some p2) = .ok (p2, "v2") := by
    simp [normalizeProjectId, hp2ne, hm2]
  have hcd1 := createDecisionObject_ok (db.generateNextEdi year).1
    ⟨CmdType.decision, v, { p with project_id := .val p1 }⟩ ts1 (p1, "v2") ce sgs hn1 hverb hsgs
  obtain ⟨hdec1, hedi1⟩ := executeDecision_branch_state db
    ⟨CmdType.decision, v, { p with project_id := .val p1 }⟩ [] year ts1 _ hsup hcd1
  have hcd2 := createDecisionObject_ok
    ((executeDecision db ⟨CmdType.decision, v, { p with project_id := .val p1 }⟩ [] year
      ts1).2.generateNextEdi year).1
    ⟨CmdType.decision, v, { p with project_id := .val p2 }⟩ ts2 (p2, "v2") ce sgs hn2 hverb hsgs
  obtain ⟨hdec2, hedi2⟩ := executeDecision_branch_state
    (executeDecision db ⟨CmdType.decision, v, { p with project_id := .val p1 }⟩ [] year ts1).2
    ⟨CmdType.decision, v, { p with project_id := .val p2 }⟩ [] year ts2 _ hsup hcd2
  rw [hdec1] at hdec2
  rw [List.append_assoc] at hdec2
  simp only [List.cons_append, List.nil_append] at hdec2
  refine ⟨_, _, hdec2, ?_, ?_, rfl, rfl, rfl, rfl⟩
  · intro hcc
    dsimp only at hcc
    rw [contextData_update, contextData_update] at hcc
    exact hne (contextData_inj p p1 p2 h1 h2 (Hash.sha256.inj hcc))
  · intro hid
    dsimp only at hid
    simp only [Db.generateNextEdi, genNextSeq] at hid
    rw [hedi1, seqLookup_seqSet_self] at hid
    have := formatEdi_seq_inj year _ _ hid
    omega

/-- Closed instance of partition isolation: the same CLASSIFY payload filed
under partitions "alpha" and "beta" on a fresh database yields two records
with distinct context hashes and distinct decision ids. -/
theorem partition_isolation_witness :
    ∃ d1 d2 : Decision,
      (executeDecision
          (executeDecision Db.empty
            ⟨CmdType.decision, "CLASSIFY",
              { invalidPartitionParams with project_id := .val "alpha" }⟩ [] 2025 "t1").2
          ⟨CmdType.decision, "CLASSIFY",
            { invalidPartitionParams with project_id := .val "beta" }⟩ [] 2025 "t2").2.decisions =
        Db.empty.decisions ++ [d1, d2] ∧
      d1.context_hash ≠ d2.context_hash ∧
      d1.eve_decision_id ≠ d2.eve_decision_id ∧
      d1.project_id = "alpha" ∧ d2.project_id = "beta" ∧
      d1.hash_version = "v2" ∧ d2.hash_version = "v2" :=
  partition_isolation Db.empty 2025 "t1" "t2" "CLASSIFY" invalidPartitionParams
    "alpha" "beta" ECLDecisionCommand.CLASSIFY (by decide) (by decide) (by decide)
    (by decide) (by decide) (by decide)
